import Mathlib

/-!
Verification of the papers3-zotero migration tools against their
specification.  The Python sources (`papers3_to_zotero.py`,
`fix_zotero_keys.py`, `papers3_scripts/papers3_publications.py`) are
shallowly embedded: each Python function becomes an executable Lean
definition over explicit state, and the spec's claims are settled as
theorems about those definitions.

Modelling conventions, used throughout:
* SQLite tables become lists of row structures; `lastrowid` becomes
  `max existing id + 1`; a `SELECT ... LIMIT`-like `fetchone` becomes
  `List.find?` over rows in insertion order.
* Python dicts used as caches become association lists where insertion
  prepends (so lookup sees the most recent binding, as a dict does).
* `random.choice` is modelled by an explicit supply of choices (an index
  stream `Nat → Nat`); `datetime.now()` by an explicit `now` argument.
* Python truthiness (`if x:`) is embedded explicitly (`pyStrTruthy`,
  `pyNatTruthy`, ...) wherever the source relies on it.
* Exceptions caught by the source are embedded as explicit control flow
  that preserves the state mutations made before the raise, exactly as
  the Python `except` branches do.
-/

namespace P3Z

/-! ## Python truthiness helpers -/

/-- Truthiness of an optional string (`if s:` in Python):
`None` and `""` are falsy. -/
def pyStrTruthy : Option String → Bool
  | none => false
  | some s => !s.isEmpty

/-- Truthiness of an optional integer (`if n:` in Python):
`None` and `0` are falsy. -/
def pyNatTruthy : Option Nat → Bool
  | none => false
  | some n => n != 0

/-- `a or b` on optional strings, as used for `pub.get(x) or pub.get(y)`. -/
def pyOrStr (a b : Option String) : Option String :=
  if pyStrTruthy a then a else b

/-! ## Key generation and validation

Embeds `fix_zotero_keys.py` (`VALID_KEY_CHARS`, `ZoteroKeyFixer.is_valid_key`,
`ZoteroKeyFixer.generate_valid_key`) and
`papers3_to_zotero.py` (`Papers3ToZoteroMigrator.generate_key`). -/

/-- `VALID_KEY_CHARS = '23456789ABCDEFGHIJKLMNPQRSTUVWXYZ'` (33 characters;
excludes 0, 1, L, O, Y). -/
def VALID_KEY_CHARS : String := "23456789ABCDEFGHIJKLMNPQRSTUVWXYZ"

/-- `ZoteroKeyFixer.is_valid_key`: `if not key or len(key) != 8: return False;
return all(c in VALID_KEY_CHARS for c in key)`.  The function consults only
the token itself (no uniqueness state is in scope). -/
def is_valid_key (key : String) : Bool :=
  if key.isEmpty || key.length != 8 then false
  else key.data.all (fun c => VALID_KEY_CHARS.data.contains c)

/-- `string.ascii_uppercase + string.digits`, the alphabet used by the
migrator's `generate_key` (36 characters, including 0, 1, L, O, Y). -/
def migratorChars : List Char := "ABCDEFGHIJKLMNOPQRSTUVWXYZ0123456789".data

/-- `Papers3ToZoteroMigrator.generate_key(length=8)`:
`''.join(random.choice(chars) for _ in range(length))`.
`random.choice` is modelled by the index stream `pick`: the `i`-th draw
picks `chars[pick i % len(chars)]`.  Note: no uniqueness check of any
kind is performed by the source. -/
def generate_key (pick : Nat → Nat) (length : Nat := 8) : String :=
  String.mk ((List.range length).map fun i => migratorChars.getD (pick i % 36) 'A')

/-- One candidate draw of `ZoteroKeyFixer.generate_valid_key`:
`''.join(random.choice(VALID_KEY_CHARS) for _ in range(8))`. -/
def pickValidKey (pick : Nat → Nat) : String :=
  String.mk ((List.range 8).map fun i => VALID_KEY_CHARS.data.getD (pick i % 33) '2')

/-- `ZoteroKeyFixer.generate_valid_key`: `while True:` draw a candidate;
if it is already in `self.stats['generated_keys']`, draw again, else add it
to the set and return it.  The unbounded `while True` is modelled with an
explicit finite supply of draws (`picks`); exhausting the supply yields
`none` (the real loop would keep drawing).  The `generated` list models the
`generated_keys` set (membership is what matters). -/
def generate_valid_key (picks : List (Nat → Nat)) (generated : List String) :
    Option (String × List String) :=
  match picks with
  | [] => none
  | pk :: rest =>
    let key := pickValidKey pk
    if generated.contains key then generate_valid_key rest generated
    else some (key, generated ++ [key])

/-- N successive calls of `generate_valid_key` within one run, threading the
`generated_keys` set; returns the list of keys produced and the final set. -/
def genNKeys (supplies : List (List (Nat → Nat))) (generated : List String) :
    Option (List String × List String) :=
  match supplies with
  | [] => some ([], generated)
  | ps :: rest =>
    match generate_valid_key ps generated with
    | none => none
    | some (k, generated') =>
      match genNKeys rest generated' with
      | none => none
      | some (ks, genF) => some (k :: ks, genF)

/-! ### Helper lemmas for keys -/

/-- Characterization of `is_valid_key`. -/
theorem is_valid_key_iff (key : String) :
    is_valid_key key = true ↔
      key.length = 8 ∧ ∀ c ∈ key.data, c ∈ VALID_KEY_CHARS.data := by
  constructor
  · intro h
    unfold is_valid_key at h
    by_cases hc : (key.isEmpty || key.length != 8) = true
    · rw [if_pos hc] at h
      exact absurd h (by simp)
    · rw [if_neg hc] at h
      have hlen : key.length = 8 := by
        by_contra hne
        exact hc (by simp [bne_iff_ne, hne])
      refine ⟨hlen, fun c hcm => ?_⟩
      have := List.all_eq_true.mp h c hcm
      simpa [List.contains] using this
  · rintro ⟨hlen, hmem⟩
    unfold is_valid_key
    have hemp : key.isEmpty = false := by
      rw [Bool.eq_false_iff]
      intro h
      rw [String.isEmpty_iff] at h
      subst h
      simp at hlen
    rw [if_neg (by simp [hemp, hlen])]
    exact List.all_eq_true.mpr fun c hcm => by simpa [List.contains] using hmem c hcm

theorem pickValidKey_valid (pick : Nat → Nat) :
    is_valid_key (pickValidKey pick) = true := by
  rw [is_valid_key_iff]
  refine ⟨rfl, ?_⟩
  intro c hc
  unfold pickValidKey at hc
  rw [show (String.mk ((List.range 8).map fun i =>
        VALID_KEY_CHARS.data.getD (pick i % 33) '2')).data =
      (List.range 8).map (fun i => VALID_KEY_CHARS.data.getD (pick i % 33) '2') from rfl,
    List.mem_map] at hc
  obtain ⟨i, _, rfl⟩ := hc
  have hlt : pick i % 33 < VALID_KEY_CHARS.data.length := by
    have : pick i % 33 < 33 := Nat.mod_lt _ (by norm_num)
    simpa [VALID_KEY_CHARS] using this
  rw [List.getD_eq_getElem?_getD, List.getElem?_eq_getElem hlt]
  exact List.getElem_mem hlt

theorem generate_valid_key_spec (picks : List (Nat → Nat)) (generated : List String)
    (k : String) (generated' : List String)
    (h : generate_valid_key picks generated = some (k, generated')) :
    is_valid_key k = true ∧ k ∉ generated ∧ generated' = generated ++ [k] := by
  induction picks with
  | nil => simp [generate_valid_key] at h
  | cons pk rest ih =>
    unfold generate_valid_key at h
    by_cases hc : generated.contains (pickValidKey pk)
    · simp only [hc, if_true] at h
      exact ih h
    · simp only [hc, if_false, Option.some.injEq, Prod.mk.injEq] at h
      obtain ⟨rfl, rfl⟩ := h
      refine ⟨pickValidKey_valid pk, ?_, rfl⟩
      intro hmem
      rw [List.contains, List.elem_eq_mem, decide_eq_true_eq] at hc
      exact hc hmem

theorem genNKeys_spec (supplies : List (List (Nat → Nat))) :
    ∀ generated results genF,
    genNKeys supplies generated = some (results, genF) →
    genF = generated ++ results ∧ results.Nodup ∧
      ∀ k ∈ results, is_valid_key k = true ∧ k ∉ generated := by
  induction supplies with
  | nil =>
    intro generated results genF h
    simp only [genNKeys, Option.some.injEq, Prod.mk.injEq] at h
    obtain ⟨rfl, rfl⟩ := h
    simp
  | cons ps rest ih =>
    intro generated results genF h
    rw [genNKeys] at h
    cases hg : generate_valid_key ps generated with
    | none =>
      simp only [hg] at h
      exact absurd h (by simp)
    | some kg =>
      obtain ⟨k, generated'⟩ := kg
      simp only [hg] at h
      cases hr : genNKeys rest generated' with
      | none =>
        simp only [hr] at h
        exact absurd h (by simp)
      | some rg =>
        obtain ⟨ks, genF'⟩ := rg
        simp only [hr, Option.some.injEq, Prod.mk.injEq] at h
        obtain ⟨rfl, rfl⟩ := h
        obtain ⟨hkvalid, hknotin, rfl⟩ := generate_valid_key_spec ps generated k generated' hg
        obtain ⟨hgenF, hnodup, hrest⟩ := ih (generated ++ [k]) ks genF' hr
        refine ⟨by simp [hgenF], ?_, ?_⟩
        · refine List.nodup_cons.mpr ⟨?_, hnodup⟩
          intro hkin
          have := (hrest k hkin).2
          simp at this
        · intro x hx
          rcases List.mem_cons.mp hx with rfl | hx'
          · exact ⟨hkvalid, hknotin⟩
          · refine ⟨(hrest x hx').1, ?_⟩
            intro hxg
            exact (hrest x hx').2 (by simp [hxg])

/-! ### Claim theorems: C9 and C2 -/

/-- C9: `is_valid_key` returns true on every 8-character token drawn
entirely from the valid alphabet, and false on every token of another
length or containing at least one excluded character.  The definition of
`is_valid_key` takes only the token as input, so it consults no
uniqueness state. -/
theorem c9_is_valid_key_correct (key : String) :
    (key.length = 8 ∧ (∀ c ∈ key.data, c ∈ VALID_KEY_CHARS.data) →
      is_valid_key key = true) ∧
    (key.length ≠ 8 ∨ (∃ c ∈ key.data, c ∉ VALID_KEY_CHARS.data) →
      is_valid_key key = false) := by
  constructor
  · intro h
    exact (is_valid_key_iff key).mpr h
  · intro h
    by_contra hv
    simp only [Bool.not_eq_false] at hv
    obtain ⟨hlen, hmem⟩ := (is_valid_key_iff key).mp hv
    rcases h with h | ⟨c, hc, hnc⟩
    · exact h hlen
    · exact hnc (hmem c hc)

/-- Witness for C9 at concrete inputs: "23456789" is valid (via the
theorem's first branch) and "2345678A0" is invalid (via the second). -/
theorem c9_is_valid_key_correct_witness :
    is_valid_key "23456789" = true ∧ is_valid_key "2345678A0" = false :=
  ⟨(c9_is_valid_key_correct "23456789").1 ⟨by decide, by decide⟩,
   (c9_is_valid_key_correct "2345678A0").2 (Or.inl (by decide))⟩

/-- C2 counterexample: the claim quantifies over both key generators it
cites, but the migrator's `generate_key` draws from the full
uppercase+digits alphabet and performs no uniqueness check: with a draw
stream that always picks index 14 ('O'), it returns "OOOOOOOO", which
fails `is_valid_key` ('O' is excluded from the valid alphabet). -/
theorem c2_counterexample :
    is_valid_key (generate_key (fun _ => 14)) = false := by decide

/-- C2 (amended): the repair tool's `generate_valid_key` has the claimed
property: whenever a run of N calls succeeds (the draw supplies do not run
out), every returned key satisfies `is_valid_key`, the N keys are pairwise
distinct, and none of them is in the pre-loaded existing-key set; a
colliding candidate is skipped and a fresh one drawn (regeneration).  The
migrator's `generate_key` does not have the property (see the
counterexample). -/
theorem c2_generate_valid_key_correct
    (supplies : List (List (Nat → Nat))) (existing : List String)
    (results genF : List String)
    (h : genNKeys supplies existing = some (results, genF)) :
    results.Nodup ∧ ∀ k ∈ results, is_valid_key k = true ∧ k ∉ existing := by
  obtain ⟨_, hnodup, hall⟩ := genNKeys_spec supplies existing results genF h
  exact ⟨hnodup, hall⟩

/-- Witness for C2 at a concrete run: the existing-key set holds
"22222222"; the first call's first draw collides with it and is skipped
(regeneration), the second draw yields "33333333"; the second call yields
"23456789".  The theorem yields distinctness, validity and freshness. -/
theorem c2_generate_valid_key_correct_witness :
    ([("33333333" : String), "23456789"].Nodup ∧
      ∀ k ∈ [("33333333" : String), "23456789"],
        is_valid_key k = true ∧ k ∉ [("22222222" : String)]) :=
  c2_generate_valid_key_correct
    [[fun _ => 0, fun _ => 1], [fun i => i]] ["22222222"]
    ["33333333", "23456789"] ["22222222", "33333333", "23456789"] (by decide)

/-! ## Publication-date conversion

Embeds `papers3_scripts/papers3_publications.py`,
`Papers3Extractor._convert_publication_date` (the leading underscore is
dropped for Lean).  Python's `datetime` constructor and `isoformat` are
modelled by `datetimeNew` / `isoformat` below with the proleptic-Gregorian
calendar bounds the CPython constructor enforces. -/

/-- Value of a digit string, `int()` on all-digit input. -/
def digitsToNat (cs : List Char) : Nat :=
  cs.foldl (fun a c => a * 10 + (c.toNat - 48)) 0

/-- Python `int(slice)`: succeeds on a nonempty all-digit slice, raises
`ValueError` (here: `none`) otherwise.  (CPython also accepts signs and
surrounding whitespace, which cannot arise from the digit positions the
theorems below consider.) -/
def parseIntStr (cs : List Char) : Option Nat :=
  if cs ≠ [] ∧ cs.all Char.isDigit then some (digitsToNat cs) else none

structure PyDatetime where
  year : Nat
  month : Nat
  day : Nat
  hour : Nat
  minute : Nat
  second : Nat
deriving Repr, DecidableEq

def isLeapYear (y : Nat) : Bool :=
  (y % 4 == 0 && y % 100 != 0) || (y % 400 == 0)

def daysInMonth (y m : Nat) : Nat :=
  if m = 2 then (if isLeapYear y then 29 else 28)
  else if m = 4 ∨ m = 6 ∨ m = 9 ∨ m = 11 then 30
  else 31

/-- `datetime(year, month, day, hour, minute, second)`: `some` when the
arguments form a valid datetime, `none` models the `ValueError` raise. -/
def datetimeNew (y m d hh mi ss : Nat) : Option PyDatetime :=
  if 1 ≤ y ∧ y ≤ 9999 ∧ 1 ≤ m ∧ m ≤ 12 ∧ 1 ≤ d ∧ d ≤ daysInMonth y m
      ∧ hh ≤ 23 ∧ mi ≤ 59 ∧ ss ≤ 59
  then some ⟨y, m, d, hh, mi, ss⟩ else none

/-- Zero-pad to two digits (`%02d`). -/
def pad2 (n : Nat) : String :=
  if n < 10 then "0" ++ toString n else toString n

/-- Zero-pad to four digits (`%04d`). -/
def pad4 (n : Nat) : String :=
  if n < 10 then "000" ++ toString n
  else if n < 100 then "00" ++ toString n
  else if n < 1000 then "0" ++ toString n
  else toString n

/-- `datetime.isoformat()` with zero microseconds:
`YYYY-MM-DDTHH:MM:SS`. -/
def isoformat (dt : PyDatetime) : String :=
  pad4 dt.year ++ "-" ++ pad2 dt.month ++ "-" ++ pad2 dt.day ++ "T" ++
    pad2 dt.hour ++ ":" ++ pad2 dt.minute ++ ":" ++ pad2 dt.second

/-- `date_string.startswith('99')` on the character list. -/
def startsWith99 : List Char → Bool
  | '9' :: '9' :: _ => true
  | _ => false

/-- `Papers3Extractor._convert_publication_date`, line for line:
`None` for `None`/short input; for a string with the `99` sentinel and
length ≥ 16, parse `YYYYMMDDHHMMSS` positionally, coerce month/day 0 to 1,
degrade to `f"{year}-01-01T00:00:00"` when year or (coerced) month/day is
out of range, otherwise build a `datetime` (whose own `ValueError` is
caught, returning the original string); non-sentinel strings are returned
unchanged. -/
def convert_publication_date (date_string : Option String) : Option String :=
  match date_string with
  | none => none
  | some s =>
    -- `if not date_string or len(date_string) < 14: return None`
    -- (an empty string has length 0 < 14, so its falsiness is subsumed)
    if s.length < 14 then none
    else
      let cs := s.data
      if startsWith99 cs ∧ 16 ≤ s.length then
        let date_part := (cs.drop 2).take 14
        match parseIntStr (date_part.take 4),
              parseIntStr ((date_part.drop 4).take 2),
              parseIntStr ((date_part.drop 6).take 2),
              parseIntStr ((date_part.drop 8).take 2),
              parseIntStr ((date_part.drop 10).take 2),
              parseIntStr ((date_part.drop 12).take 2) with
        | some year, some month0, some day0, some hour, some minute, some second =>
          let month := if month0 = 0 then 1 else month0
          let day := if day0 = 0 then 1 else day0
          if year < 1900 ∨ year > 2100 ∨ month < 1 ∨ month > 12 ∨ day < 1 ∨ day > 31 then
            some (toString year ++ "-01-01T00:00:00")
          else
            match datetimeNew year month day hour minute second with
            | some dt => some (isoformat dt)
            | none => some s         -- `except (ValueError, ...)`: original string
        | _, _, _, _, _, _ => some s -- `int()` raised; original string
      else some s

/-! ### Helper lemmas for the date conversion -/

theorem parseIntStr_digits {cs : List Char} (hne : cs ≠ [])
    (hd : cs.all Char.isDigit = true) :
    parseIntStr cs = some (digitsToNat cs) := by
  unfold parseIntStr
  rw [if_pos ⟨hne, hd⟩]

/-- Reduction of `convert_publication_date` on a well-formed sentinel
string `"99" ++ YYYY ++ MM ++ DD ++ HH ++ MM ++ SS ++ tail` whose fourteen
digit positions are digits. -/
theorem convert_publication_date_reduce
    (ys mos ds hs mis ses t : List Char)
    (hy : ys.length = 4) (hmo : mos.length = 2) (hd : ds.length = 2)
    (hhl : hs.length = 2) (hmil : mis.length = 2) (hsel : ses.length = 2)
    (hyd : ys.all Char.isDigit = true) (hmod : mos.all Char.isDigit = true)
    (hdd : ds.all Char.isDigit = true) (hhd : hs.all Char.isDigit = true)
    (hmid : mis.all Char.isDigit = true) (hsed : ses.all Char.isDigit = true) :
    convert_publication_date
        (some (String.mk ('9' :: '9' :: (ys ++ mos ++ ds ++ hs ++ mis ++ ses ++ t)))) =
      (if digitsToNat ys < 1900 ∨ digitsToNat ys > 2100
          ∨ (if digitsToNat mos = 0 then 1 else digitsToNat mos) < 1
          ∨ (if digitsToNat mos = 0 then 1 else digitsToNat mos) > 12
          ∨ (if digitsToNat ds = 0 then 1 else digitsToNat ds) < 1
          ∨ (if digitsToNat ds = 0 then 1 else digitsToNat ds) > 31 then
        some (toString (digitsToNat ys) ++ "-01-01T00:00:00")
      else
        match datetimeNew (digitsToNat ys)
            (if digitsToNat mos = 0 then 1 else digitsToNat mos)
            (if digitsToNat ds = 0 then 1 else digitsToNat ds)
            (digitsToNat hs) (digitsToNat mis) (digitsToNat ses) with
        | some dt => some (isoformat dt)
        | none =>
          some (String.mk ('9' :: '9' :: (ys ++ mos ++ ds ++ hs ++ mis ++ ses ++ t)))) := by
  have hne_ys : ys ≠ [] := by intro h; rw [h] at hy; simp at hy
  have hne_mos : mos ≠ [] := by intro h; rw [h] at hmo; simp at hmo
  have hne_ds : ds ≠ [] := by intro h; rw [h] at hd; simp at hd
  have hne_hs : hs ≠ [] := by intro h; rw [h] at hhl; simp at hhl
  have hne_mis : mis ≠ [] := by intro h; rw [h] at hmil; simp at hmil
  have hne_ses : ses ≠ [] := by intro h; rw [h] at hsel; simp at hsel
  have hdata : (String.mk ('9' :: '9' :: (ys ++ mos ++ ds ++ hs ++ mis ++ ses ++ t))).data
      = '9' :: '9' :: (ys ++ mos ++ ds ++ hs ++ mis ++ ses ++ t) := rfl
  have hlen : (String.mk ('9' :: '9' :: (ys ++ mos ++ ds ++ hs ++ mis ++ ses ++ t))).length
      = 16 + t.length := by
    simp only [String.length, hdata, List.length_cons, List.length_append,
      hy, hmo, hd, hhl, hmil, hsel]
    omega
  have h99 : startsWith99
      (String.mk ('9' :: '9' :: (ys ++ mos ++ ds ++ hs ++ mis ++ ses ++ t))).data = true := rfl
  -- the fourteen-character date part and its positional slices
  have hX : ('9' :: '9' :: (ys ++ mos ++ ds ++ hs ++ mis ++ ses ++ t)).drop 2
      = ys ++ mos ++ ds ++ hs ++ mis ++ ses ++ t := rfl
  have s1 : ((ys ++ mos ++ ds ++ hs ++ mis ++ ses ++ t).take 14).take 4 = ys := by
    rw [List.take_take]
    norm_num
    exact List.take_left' hy
  have s2 : (((ys ++ mos ++ ds ++ hs ++ mis ++ ses ++ t).take 14).drop 4).take 2 = mos := by
    rw [List.drop_take, List.take_take]
    norm_num
    rw [List.drop_left' hy]
    exact List.take_left' hmo
  have s3 : (((ys ++ mos ++ ds ++ hs ++ mis ++ ses ++ t).take 14).drop 6).take 2 = ds := by
    rw [List.drop_take, List.take_take]
    norm_num
    rw [← List.append_assoc, List.drop_left' (by simp [hy, hmo])]
    exact List.take_left' hd
  have s4 : (((ys ++ mos ++ ds ++ hs ++ mis ++ ses ++ t).take 14).drop 8).take 2 = hs := by
    rw [List.drop_take, List.take_take]
    norm_num
    rw [← List.append_assoc, ← List.append_assoc,
      List.drop_left' (by simp [hy, hmo, hd])]
    exact List.take_left' hhl
  have s5 : (((ys ++ mos ++ ds ++ hs ++ mis ++ ses ++ t).take 14).drop 10).take 2 = mis := by
    rw [List.drop_take, List.take_take]
    norm_num
    rw [← List.append_assoc, ← List.append_assoc, ← List.append_assoc,
      List.drop_left' (by simp [hy, hmo, hd, hhl])]
    exact List.take_left' hmil
  have s6 : (((ys ++ mos ++ ds ++ hs ++ mis ++ ses ++ t).take 14).drop 12).take 2 = ses := by
    rw [List.drop_take, List.take_take]
    norm_num
    rw [← List.append_assoc, ← List.append_assoc, ← List.append_assoc, ← List.append_assoc,
      List.drop_left' (by simp [hy, hmo, hd, hhl, hmil])]
    exact List.take_left' hsel
  simp only [convert_publication_date]
  rw [if_neg (by rw [hlen]; omega), if_pos ⟨h99, by rw [hlen]; omega⟩, hX,
    s1, s2, s3, s4, s5, s6,
    parseIntStr_digits hne_ys hyd, parseIntStr_digits hne_mos hmod,
    parseIntStr_digits hne_ds hdd, parseIntStr_digits hne_hs hhd,
    parseIntStr_digits hne_mis hmid, parseIntStr_digits hne_ses hsed]

/-! ### Claim theorems: C4 -/

/-- C4 counterexample: `"9920000000990000"` has the sentinel prefix,
month `"00"` and day `"00"`, but hour `"99"`; the claim says it parses to
January 1 of year 2000, yet the code's `datetime(2000, 1, 1, 99, 0, 0)`
raises `ValueError` and the `except` branch returns the original string
unchanged. -/
theorem c4_counterexample :
    convert_publication_date (some "9920000000990000") = some "9920000000990000" ∧
    some "9920000000990000" ≠ some ("2000" ++ "-01-01T00:00:00") := by
  constructor
  · decide
  · decide

/-- C4 (amended): for a sentinel-prefixed timestamp string
`"99" ++ YYYY ++ MM ++ DD ++ HH ++ MM ++ SS ++ tail` with all fourteen
date positions digits: a month or day of zero is coerced to 1; a year
outside [1900, 2100] or an out-of-range (coerced) month/day makes the
conversion return `<year>-01-01T00:00:00`; and month "00" with day "00"
parses to January 1 of the encoded year *provided the time-of-day fields
form a valid time* (hour ≤ 23, minute ≤ 59, second ≤ 59) — otherwise the
`datetime` constructor raises and the original string is returned
instead. -/
theorem c4_date_degradation
    (ys mos ds hs mis ses t : List Char)
    (hy : ys.length = 4) (hmo : mos.length = 2) (hd : ds.length = 2)
    (hhl : hs.length = 2) (hmil : mis.length = 2) (hsel : ses.length = 2)
    (hyd : ys.all Char.isDigit = true) (hmod : mos.all Char.isDigit = true)
    (hdd : ds.all Char.isDigit = true) (hhd : hs.all Char.isDigit = true)
    (hmid : mis.all Char.isDigit = true) (hsed : ses.all Char.isDigit = true) :
    (digitsToNat ys < 1900 ∨ digitsToNat ys > 2100
        ∨ (if digitsToNat mos = 0 then 1 else digitsToNat mos) > 12
        ∨ (if digitsToNat ds = 0 then 1 else digitsToNat ds) > 31 →
      convert_publication_date
          (some (String.mk ('9' :: '9' :: (ys ++ mos ++ ds ++ hs ++ mis ++ ses ++ t)))) =
        some (toString (digitsToNat ys) ++ "-01-01T00:00:00")) ∧
    (digitsToNat mos = 0 → digitsToNat ds = 0 →
      1900 ≤ digitsToNat ys → digitsToNat ys ≤ 2100 →
      digitsToNat hs ≤ 23 → digitsToNat mis ≤ 59 → digitsToNat ses ≤ 59 →
      convert_publication_date
          (some (String.mk ('9' :: '9' :: (ys ++ mos ++ ds ++ hs ++ mis ++ ses ++ t)))) =
        some (isoformat ⟨digitsToNat ys, 1, 1,
          digitsToNat hs, digitsToNat mis, digitsToNat ses⟩)) := by
  rw [convert_publication_date_reduce ys mos ds hs mis ses t
    hy hmo hd hhl hmil hsel hyd hmod hdd hhd hmid hsed]
  constructor
  · intro h
    rw [if_pos]
    rcases h with h | h | h | h
    · exact Or.inl h
    · exact Or.inr (Or.inl h)
    · exact Or.inr (Or.inr (Or.inr (Or.inl h)))
    · exact Or.inr (Or.inr (Or.inr (Or.inr (Or.inr h))))
  · intro hm0 hd0 hy1 hy2 hh23 hmi59 hse59
    rw [hm0, hd0, show (if (0 : Nat) = 0 then 1 else (0 : Nat)) = 1 from rfl]
    rw [if_neg (by omega)]
    have hdt : datetimeNew (digitsToNat ys) 1 1
        (digitsToNat hs) (digitsToNat mis) (digitsToNat ses) =
        some ⟨digitsToNat ys, 1, 1, digitsToNat hs, digitsToNat mis, digitsToNat ses⟩ := by
      unfold datetimeNew
      rw [if_pos]
      refine ⟨by omega, by omega, by omega, by omega, by omega, ?_, hh23, hmi59, hse59⟩
      simp [daysInMonth]
    rw [hdt]

/-- Witness for C4 at concrete inputs: year 0500 (out of range) degrades
to `"500-01-01T00:00:00"`, and month/day `"00"` with valid time `12:34:56`
in year 2000 parses to January 1, 2000. -/
theorem c4_date_degradation_witness :
    convert_publication_date
        (some (String.mk ('9' :: '9' :: ("0500".data ++ "00".data ++ "00".data
          ++ "00".data ++ "00".data ++ "00".data ++ [])))) =
      some (toString (digitsToNat "0500".data) ++ "-01-01T00:00:00") ∧
    convert_publication_date
        (some (String.mk ('9' :: '9' :: ("2000".data ++ "00".data ++ "00".data
          ++ "12".data ++ "34".data ++ "56".data ++ [])))) =
      some (isoformat ⟨digitsToNat "2000".data, 1, 1,
        digitsToNat "12".data, digitsToNat "34".data, digitsToNat "56".data⟩) :=
  ⟨(c4_date_degradation "0500".data "00".data "00".data "00".data "00".data "00".data []
      (by decide) (by decide) (by decide) (by decide) (by decide) (by decide)
      (by decide) (by decide) (by decide) (by decide) (by decide) (by decide)).1
      (Or.inl (by decide)),
   (c4_date_degradation "2000".data "00".data "00".data "12".data "34".data "56".data []
      (by decide) (by decide) (by decide) (by decide) (by decide) (by decide)
      (by decide) (by decide) (by decide) (by decide) (by decide) (by decide)).2
      (by decide) (by decide) (by decide) (by decide) (by decide) (by decide) (by decide)⟩

/-! ## File organizer

Embeds `Papers3ToZoteroMigrator.files_are_identical`,
`find_available_path` and `copy_and_organize_file`.  The destination tree
is a finite map from rendered path strings to file contents (byte lists);
`shutil.copy2` becomes an overwriting insert.  MD5 is modelled by an
injective digest (the identity on contents): the source treats hash
equality as content equality, and no claim depends on hash collisions. -/

/-- A filesystem path split as `pathlib` sees it: parent directory,
`stem` and `suffix` (the suffix carries its leading dot). -/
structure FPath where
  dir : String
  stem : String
  suffix : String
deriving Repr, DecidableEq

def render (p : FPath) : String := p.dir ++ "/" ++ p.stem ++ p.suffix

/-- The on-disk tree: rendered path ↦ contents.  Later bindings shadow
earlier ones (overwriting copy). -/
abbrev FS : Type := List (String × List Nat)

def fsLookup (fs : FS) (path : String) : Option (List Nat) :=
  List.lookup path fs

/-- `shutil.copy2 source target`: (over)write `target` with the given
contents. -/
def fsInsert (fs : FS) (path : String) (contents : List Nat) : FS :=
  (path, contents) :: fs

/-- `path.exists()`. -/
def pexists (fs : FS) (p : FPath) : Bool :=
  (fsLookup fs (render p)).isSome

/-- MD5 modelled as an injective digest of the contents. -/
def md5Model (contents : List Nat) : List Nat := contents

/-- `compute_file_hash` (full hash; the `quick` 1-MiB variant is never
called by the code under verification): hash of the contents, `""`
(here `[]`) if reading raises. -/
def compute_file_hash (fs : FS) (p : FPath) : List Nat :=
  match fsLookup fs (render p) with
  | some c => md5Model c
  | none => []

/-- `files_are_identical`: `stat` both paths (an exception — a missing
file — is caught and yields `False`), compare sizes, then full MD5
hashes. -/
def files_are_identical (fs : FS) (p1 p2 : FPath) : Bool :=
  match fsLookup fs (render p1), fsLookup fs (render p2) with
  | some c1, some c2 =>
    c1.length == c2.length && compute_file_hash fs p1 == compute_file_hash fs p2
  | _, _ => false

/-- `parent / f"{stem}_{counter}{suffix}"`. -/
def variantPath (base : FPath) (counter : Nat) : FPath :=
  ⟨base.dir, base.stem ++ "_" ++ toString counter, base.suffix⟩

/-- `parent / f"{pub_uuid}{suffix}"`. -/
def uuidPath (base : FPath) (pubUuid : String) : FPath :=
  ⟨base.dir, pubUuid, base.suffix⟩

/-- The `for counter in range(2, 11)` loop of `find_available_path`:
first missing variant is taken (not a duplicate), an identical variant is
reused (duplicate); otherwise try the next counter. -/
def tryVariants (fs : FS) (sourcePath basePath : FPath) :
    List Nat → Option (FPath × Bool)
  | [] => none
  | counter :: rest =>
    let newPath := variantPath basePath counter
    if !pexists fs newPath then some (newPath, false)
    else if files_are_identical fs sourcePath newPath then some (newPath, true)
    else tryVariants fs sourcePath basePath rest

/-- `find_available_path(source_path, base_target_path, pub_uuid)`:
returns `(target_path, is_duplicate)`. -/
def find_available_path (fs : FS) (sourcePath baseTargetPath : FPath)
    (pubUuid : String) : FPath × Bool :=
  if !pexists fs baseTargetPath then (baseTargetPath, false)
  else if files_are_identical fs sourcePath baseTargetPath then (baseTargetPath, true)
  else
    match tryVariants fs sourcePath baseTargetPath (List.range' 2 9) with
    | some r => r
    | none =>
      let up := uuidPath baseTargetPath pubUuid
      if pexists fs up && files_are_identical fs sourcePath up then (up, true)
      else (up, false)

/-- Run statistics (`self.stats`). -/
structure Stats where
  collections : Nat := 0
  items : Nat := 0
  attachments : Nat := 0
  creators : Nat := 0
  tags : Nat := 0
  errors : List String := []
  files_found : Nat := 0
  files_copied : Nat := 0
  files_skipped : Nat := 0
  files_missing : Nat := 0
  missing_files : List String := []
deriving Repr, DecidableEq

/-- `copy_and_organize_file(source_path, target_path, pub_uuid)`:
missing source is counted and logged (no slot); a duplicate is skipped;
otherwise the file is copied (simulated when `test_mode`).  Returns the
updated tree, updated statistics and the path where the file exists. -/
def copy_and_organize_file (testMode : Bool) (fs : FS) (stats : Stats)
    (sourcePath targetPath : FPath) (pubUuid : String) :
    FS × Stats × Option FPath :=
  match fsLookup fs (render sourcePath) with
  | none =>
    (fs, { stats with files_missing := stats.files_missing + 1,
                      missing_files := stats.missing_files ++ [render sourcePath] },
      none)
  | some srcContents =>
    let stats := { stats with files_found := stats.files_found + 1 }
    let fp := find_available_path fs sourcePath targetPath pubUuid
    if fp.2 then
      (fs, { stats with files_skipped := stats.files_skipped + 1 }, some fp.1)
    else
      -- `final_path.parent.mkdir(...)` has no observable effect here
      let fs' := if testMode then fs else fsInsert fs (render fp.1) srcContents
      (fs', { stats with files_copied := stats.files_copied + 1 }, some fp.1)

/-! ### Helper lemmas for the file organizer -/

theorem files_are_identical_iff (fs : FS) (p q : FPath) :
    files_are_identical fs p q = true ↔
      ∃ c, fsLookup fs (render p) = some c ∧ fsLookup fs (render q) = some c := by
  cases hp : fsLookup fs (render p) with
  | none => simp [files_are_identical, hp]
  | some c1 =>
    cases hq : fsLookup fs (render q) with
    | none => simp [files_are_identical, hp, hq]
    | some c2 =>
      simp only [files_are_identical, compute_file_hash, md5Model, hp, hq,
        Bool.and_eq_true, beq_iff_eq]
      constructor
      · rintro ⟨h1, h2⟩
        exact ⟨c1, rfl, by rw [h2]⟩
      · rintro ⟨c, hc1, hc2⟩
        obtain rfl := Option.some.inj hc1
        obtain rfl := Option.some.inj hc2
        exact ⟨rfl, rfl⟩

theorem files_are_identical_of (fs : FS) (p q : FPath) (c : List Nat)
    (hp : fsLookup fs (render p) = some c) (hq : fsLookup fs (render q) = some c) :
    files_are_identical fs p q = true :=
  (files_are_identical_iff fs p q).mpr ⟨c, hp, hq⟩

theorem files_are_identical_ne (fs : FS) (p q : FPath) (cp cq : List Nat)
    (hp : fsLookup fs (render p) = some cp) (hq : fsLookup fs (render q) = some cq)
    (hne : cp ≠ cq) : files_are_identical fs p q = false := by
  rw [Bool.eq_false_iff]
  intro h
  obtain ⟨c, hc1, hc2⟩ := (files_are_identical_iff fs p q).mp h
  rw [hp] at hc1
  rw [hq] at hc2
  exact hne ((Option.some.inj hc1).trans (Option.some.inj hc2).symm)

theorem pexists_iff (fs : FS) (p : FPath) :
    pexists fs p = true ↔ ∃ c, fsLookup fs (render p) = some c := by
  simp [pexists, Option.isSome_iff_exists]

theorem fsLookup_insert (fs : FS) (k k' : String) (c : List Nat) :
    fsLookup (fsInsert fs k c) k' = if k' = k then some c else fsLookup fs k' := by
  simp only [fsLookup, fsInsert, List.lookup]
  by_cases h : k' = k
  · simp [h]
  · have hbeq : (k' == k) = false := by simp [h]
    simp [h, hbeq, fsLookup]

theorem pexists_insert_mono (fs : FS) (k : String) (c : List Nat) (p : FPath)
    (h : pexists fs p = true) : pexists (fsInsert fs k c) p = true := by
  rw [pexists, fsLookup_insert]
  by_cases hk : render p = k
  · simp [hk]
  · rw [if_neg hk]
    exact h

theorem pexists_insert_self (fs : FS) (c : List Nat) (p : FPath) :
    pexists (fsInsert fs (render p) c) p = true := by
  rw [pexists, fsLookup_insert, if_pos rfl]
  rfl

theorem tryVariants_none_mem (fs : FS) (src base : FPath) :
    ∀ {ks : List Nat}, tryVariants fs src base ks = none →
    ∀ k ∈ ks, pexists fs (variantPath base k) = true ∧
      files_are_identical fs src (variantPath base k) = false := by
  intro ks
  induction ks with
  | nil =>
    intro _ k hk
    simp at hk
  | cons c rest ih =>
    intro h k hk
    rw [tryVariants] at h
    cases hex : pexists fs (variantPath base c) with
    | false => simp [hex] at h
    | true =>
      simp only [hex, Bool.not_true, Bool.false_eq_true, if_false] at h
      cases hid : files_are_identical fs src (variantPath base c) with
      | true => simp [hid] at h
      | false =>
        simp only [hid, Bool.false_eq_true, if_false] at h
        rcases List.mem_cons.mp hk with rfl | hk'
        · exact ⟨hex, hid⟩
        · exact ih h k hk'

theorem tryVariants_none_of (fs : FS) (src base : FPath) :
    ∀ {ks : List Nat},
    (∀ k ∈ ks, pexists fs (variantPath base k) = true ∧
      files_are_identical fs src (variantPath base k) = false) →
    tryVariants fs src base ks = none := by
  intro ks
  induction ks with
  | nil => intro _; rfl
  | cons c rest ih =>
    intro h
    obtain ⟨hex, hid⟩ := h c (List.mem_cons_self c rest)
    rw [tryVariants]
    simp only [hex, hid, Bool.not_true, Bool.false_eq_true, if_false]
    exact ih fun k hk => h k (List.mem_cons_of_mem c hk)

theorem tryVariants_some_decomp (fs : FS) (src base : FPath) :
    ∀ {ks : List Nat} {p : FPath} {b : Bool},
    tryVariants fs src base ks = some (p, b) →
    ∃ pre k post, ks = pre ++ k :: post ∧ p = variantPath base k ∧
      (∀ j ∈ pre, pexists fs (variantPath base j) = true ∧
        files_are_identical fs src (variantPath base j) = false) ∧
      ((b = true ∧ pexists fs (variantPath base k) = true ∧
          files_are_identical fs src (variantPath base k) = true) ∨
        (b = false ∧ pexists fs (variantPath base k) = false)) := by
  intro ks
  induction ks with
  | nil =>
    intro p b h
    simp [tryVariants] at h
  | cons c rest ih =>
    intro p b h
    rw [tryVariants] at h
    cases hex : pexists fs (variantPath base c) with
    | false =>
      simp only [hex, Bool.not_false, if_true, Option.some.injEq, Prod.mk.injEq] at h
      obtain ⟨rfl, rfl⟩ := h
      exact ⟨[], c, rest, rfl, rfl, by simp, Or.inr ⟨rfl, hex⟩⟩
    | true =>
      simp only [hex, Bool.not_true, Bool.false_eq_true, if_false] at h
      cases hid : files_are_identical fs src (variantPath base c) with
      | true =>
        simp only [hid, if_true, Option.some.injEq, Prod.mk.injEq] at h
        obtain ⟨rfl, rfl⟩ := h
        exact ⟨[], c, rest, rfl, rfl, by simp, Or.inl ⟨rfl, hex, hid⟩⟩
      | false =>
        simp only [hid, Bool.false_eq_true, if_false] at h
        obtain ⟨pre, k, post, hks, hp, hpre, hk⟩ := ih h
        refine ⟨c :: pre, k, post, by rw [hks]; rfl, hp, ?_, hk⟩
        intro j hj
        rcases List.mem_cons.mp hj with rfl | hj'
        · exact ⟨hex, hid⟩
        · exact hpre j hj'

theorem tryVariants_finds_dup (fs : FS) (src base : FPath) :
    ∀ (pre : List Nat) (k : Nat) (post : List Nat),
    (∀ j ∈ pre, pexists fs (variantPath base j) = true) →
    pexists fs (variantPath base k) = true →
    files_are_identical fs src (variantPath base k) = true →
    ∃ q, tryVariants fs src base (pre ++ k :: post) = some (q, true) := by
  intro pre
  induction pre with
  | nil =>
    intro k post _ hex hid
    refine ⟨variantPath base k, ?_⟩
    rw [List.nil_append, tryVariants]
    simp only [hex, hid, Bool.not_true, Bool.false_eq_true, if_false, if_true]
  | cons c pre' ih =>
    intro k post hpre hex hid
    have hcex := hpre c (List.mem_cons_self c pre')
    rw [List.cons_append, tryVariants]
    simp only [hcex, Bool.not_true, Bool.false_eq_true, if_false]
    cases hcid : files_are_identical fs src (variantPath base c) with
    | true =>
      exact ⟨variantPath base c, by simp [hcid]⟩
    | false =>
      simp only [hcid, Bool.false_eq_true, if_false]
      exact ih k post (fun j hj => hpre j (List.mem_cons_of_mem c hj)) hex hid

theorem tryVariants_all_exist (fs : FS) (src base : FPath) :
    ∀ {ks : List Nat},
    (∀ j ∈ ks, pexists fs (variantPath base j) = true) →
    tryVariants fs src base ks = none ∨
      ∃ q, tryVariants fs src base ks = some (q, true) := by
  intro ks
  induction ks with
  | nil => intro _; exact Or.inl rfl
  | cons c rest ih =>
    intro h
    have hcex := h c (List.mem_cons_self c rest)
    rw [tryVariants]
    simp only [hcex, Bool.not_true, Bool.false_eq_true, if_false]
    cases hcid : files_are_identical fs src (variantPath base c) with
    | true => exact Or.inr ⟨variantPath base c, by simp⟩
    | false =>
      simp only [Bool.false_eq_true, if_false]
      exact ih fun j hj => h j (List.mem_cons_of_mem c hj)

/-! ### Claim theorems: C3 -/

/-- Destination tree for the C3 counterexample: the source holds contents
`[2]`; the base path `r/T_2000.pdf`, all nine numbered variants and the
uuid-keyed fallback `r/U1.pdf` all hold different contents `[1]`. -/
def c3fs : FS :=
  [("s/f.pdf", [2]), ("r/T_2000.pdf", [1]),
   ("r/T_2000_2.pdf", [1]), ("r/T_2000_3.pdf", [1]), ("r/T_2000_4.pdf", [1]),
   ("r/T_2000_5.pdf", [1]), ("r/T_2000_6.pdf", [1]), ("r/T_2000_7.pdf", [1]),
   ("r/T_2000_8.pdf", [1]), ("r/T_2000_9.pdf", [1]), ("r/T_2000_10.pdf", [1]),
   ("r/U1.pdf", [1])]

def c3base : FPath := ⟨"r", "T_2000", ".pdf"⟩

def c3src : FPath := ⟨"s", "f", ".pdf"⟩

/-- C3 counterexample: when the base path and all numbered variants are
taken by non-identical content, `find_available_path` returns the
uuid-keyed fallback as (`is_duplicate = false`) even though that path
already holds content different from the source, and
`copy_and_organize_file` then overwrites it: afterwards `r/U1.pdf` holds
the source's contents `[2]`, destroying the pre-existing `[1]`.  So the
chosen destination can be a path holding different content, and the
fallback is not guaranteed available. -/
theorem c3_counterexample :
    find_available_path c3fs c3src c3base "U1" = (uuidPath c3base "U1", false) ∧
    fsLookup c3fs (render (uuidPath c3base "U1")) = some [1] ∧
    fsLookup c3fs (render c3src) = some [2] ∧
    fsLookup (copy_and_organize_file false c3fs {} c3src c3base "U1").1
      (render (uuidPath c3base "U1")) = some [2] := by
  refine ⟨by decide, by decide, by decide, by decide⟩

/-- C3 (amended): the no-overwrite invariant holds for the base path and
all numbered variants, but not for the uuid-keyed fallback: whenever
`find_available_path` reports a duplicate, the chosen path holds content
identical to the source; whenever it reports a non-duplicate (the path
that will be copied to), that path either does not exist yet or is the
uuid-keyed fallback — which may already hold different content (e.g. when
one publication carries two distinct attachments with the same extension
that both overflow the numbered variants) and is then overwritten by the
copy. -/
theorem c3_no_overwrite_outside_uuid_fallback (fs : FS) (src base : FPath)
    (uuid : String) (p : FPath) (b : Bool)
    (h : find_available_path fs src base uuid = (p, b)) :
    (b = true → files_are_identical fs src p = true) ∧
    (b = false → pexists fs p = false ∨ p = uuidPath base uuid) := by
  rw [find_available_path] at h
  cases hex : pexists fs base with
  | false =>
    simp only [hex, Bool.not_false, if_true, Prod.mk.injEq] at h
    obtain ⟨rfl, rfl⟩ := h
    exact ⟨fun hb => (nomatch hb), fun _ => Or.inl hex⟩
  | true =>
    simp only [hex, Bool.not_true, Bool.false_eq_true, if_false] at h
    cases hid : files_are_identical fs src base with
    | true =>
      simp only [hid, if_true, Prod.mk.injEq] at h
      obtain ⟨rfl, rfl⟩ := h
      exact ⟨fun _ => hid, fun hb => (nomatch hb)⟩
    | false =>
      simp only [hid, Bool.false_eq_true, if_false] at h
      cases htv : tryVariants fs src base (List.range' 2 9) with
      | some r =>
        simp only [htv] at h
        subst h
        obtain ⟨pre, k, post, hks, hp, hpre, hk⟩ := tryVariants_some_decomp fs src base htv
        rcases hk with ⟨hbt, hexk, hidk⟩ | ⟨hbf, hexk⟩
        · refine ⟨fun _ => by rw [hp]; exact hidk, fun hb => ?_⟩
          rw [hbt] at hb
          exact nomatch hb
        · refine ⟨fun hb => ?_, fun _ => Or.inl (by rw [hp]; exact hexk)⟩
          rw [hbf] at hb
          exact nomatch hb
      | none =>
        simp only [htv] at h
        cases hup : pexists fs (uuidPath base uuid) &&
            files_are_identical fs src (uuidPath base uuid) with
        | true =>
          rw [hup, if_pos rfl, Prod.mk.injEq] at h
          obtain ⟨rfl, rfl⟩ := h
          have hand : pexists fs (uuidPath base uuid) = true ∧
              files_are_identical fs src (uuidPath base uuid) = true := by
            simpa using hup
          exact ⟨fun _ => hand.2, fun hb => (nomatch hb)⟩
        | false =>
          rw [hup, if_neg (by simp), Prod.mk.injEq] at h
          obtain ⟨rfl, rfl⟩ := h
          exact ⟨fun hb => (nomatch hb), fun _ => Or.inr rfl⟩

/-- Witness for C3 (amended) at a concrete input: with an empty
destination tree and an existing source, the resolved path is the base
path, reported non-duplicate, and indeed does not exist yet. -/
theorem c3_no_overwrite_outside_uuid_fallback_witness :
    pexists [(("s/f.pdf" : String), ([2] : List Nat))] c3base = false ∨
      c3base = uuidPath c3base "U1" :=
  (c3_no_overwrite_outside_uuid_fallback [("s/f.pdf", [2])] c3src c3base "U1"
    c3base false (by decide)).2 rfl

/-! ### Claim theorems: C8 -/

/-- After `copy_and_organize_file` has placed a source file with contents
`c`, resolving a second source with the same contents against the updated
tree reports a duplicate. -/
theorem find_available_path_dup_after_place (fs : FS) (src1 src2 base : FPath)
    (uuid : String) (c : List Nat) (p : FPath) (b : Bool)
    (h1 : fsLookup fs (render src1) = some c)
    (h2 : fsLookup fs (render src2) = some c)
    (hfind : find_available_path fs src1 base uuid = (p, b)) :
    (find_available_path (if b then fs else fsInsert fs (render p) c) src2 base uuid).2
      = true := by
  rw [find_available_path] at hfind
  cases hex : pexists fs base with
  | false =>
    -- run 1: base free, the copy lands on the base path
    simp only [hex, Bool.not_false, if_true, Prod.mk.injEq] at hfind
    obtain ⟨rfl, rfl⟩ := hfind
    simp only [Bool.false_eq_true, if_false]
    have hsrc2 : fsLookup (fsInsert fs (render base) c) (render src2) = some c := by
      rw [fsLookup_insert]
      by_cases hk : render src2 = render base
      · rw [if_pos hk]
      · rw [if_neg hk]; exact h2
    have hbase2 : fsLookup (fsInsert fs (render base) c) (render base) = some c := by
      rw [fsLookup_insert, if_pos rfl]
    have hexb : pexists (fsInsert fs (render base) c) base = true :=
      pexists_insert_self fs c base
    have hidb : files_are_identical (fsInsert fs (render base) c) src2 base = true :=
      files_are_identical_of _ _ _ c hsrc2 hbase2
    rw [find_available_path]
    simp only [hexb, hidb, Bool.not_true, Bool.false_eq_true, if_false, if_true]
  | true =>
    simp only [hex, Bool.not_true, Bool.false_eq_true, if_false] at hfind
    obtain ⟨d, hd⟩ := (pexists_iff fs base).mp hex
    cases hidb : files_are_identical fs src1 base with
    | true =>
      -- run 1: duplicate at the base path, tree unchanged
      simp only [hidb, if_true, Prod.mk.injEq] at hfind
      obtain ⟨rfl, rfl⟩ := hfind
      show (find_available_path fs src2 base uuid).2 = true
      obtain ⟨e, he1, heb⟩ := (files_are_identical_iff fs src1 base).mp hidb
      rw [h1] at he1
      obtain rfl := Option.some.inj he1
      rw [find_available_path]
      have hid2 : files_are_identical fs src2 base = true :=
        files_are_identical_of _ _ _ c h2 heb
      simp only [hex, hid2, Bool.not_true, Bool.false_eq_true, if_false, if_true]
    | false =>
      simp only [hidb, Bool.false_eq_true, if_false] at hfind
      have hdnec : d ≠ c := by
        intro hdc
        subst hdc
        have hcontr := files_are_identical_of fs src1 base d h1 hd
        rw [hcontr] at hidb
        exact Bool.noConfusion hidb
      have hid2 : files_are_identical fs src2 base = false :=
        files_are_identical_ne fs src2 base c d h2 hd (fun hcd => hdnec hcd.symm)
      cases htv : tryVariants fs src1 base (List.range' 2 9) with
      | some r =>
        obtain ⟨q, bb⟩ := r
        simp only [htv, Prod.mk.injEq] at hfind
        obtain ⟨rfl, rfl⟩ := hfind
        obtain ⟨pre, k, post, hks, hp, hpre, hk⟩ := tryVariants_some_decomp fs src1 base htv
        subst hp
        rcases hk with ⟨hbt, hexk, hidk⟩ | ⟨hbf, hexk⟩
        · -- run 1: duplicate at variant k, tree unchanged
          subst hbt
          show (find_available_path fs src2 base uuid).2 = true
          obtain ⟨e, he1, hek⟩ :=
            (files_are_identical_iff fs src1 (variantPath base k)).mp hidk
          rw [h1] at he1
          obtain rfl := Option.some.inj he1
          rw [find_available_path]
          simp only [hex, hid2, Bool.not_true, Bool.false_eq_true, if_false]
          obtain ⟨q', hq'⟩ := tryVariants_finds_dup fs src2 base pre k post
            (fun j hj => (hpre j hj).1) hexk
            (files_are_identical_of _ _ _ c h2 hek)
          rw [hks]
          simp [hq']
        · -- run 1: copy lands on variant k
          subst hbf
          simp only [Bool.false_eq_true, if_false]
          have hsrc2 : fsLookup (fsInsert fs (render (variantPath base k)) c)
              (render src2) = some c := by
            rw [fsLookup_insert]
            by_cases hkk : render src2 = render (variantPath base k)
            · rw [if_pos hkk]
            · rw [if_neg hkk]; exact h2
          have hvk : fsLookup (fsInsert fs (render (variantPath base k)) c)
              (render (variantPath base k)) = some c := by
            rw [fsLookup_insert, if_pos rfl]
          rw [find_available_path]
          have hexb2 : pexists (fsInsert fs (render (variantPath base k)) c) base = true :=
            pexists_insert_mono fs _ c base hex
          by_cases hbq : render base = render (variantPath base k)
          · have hid3 : files_are_identical (fsInsert fs (render (variantPath base k)) c)
                src2 base = true :=
              files_are_identical_of _ _ _ c hsrc2 (by rw [fsLookup_insert, if_pos hbq])
            simp only [hexb2, hid3, Bool.not_true, Bool.false_eq_true, if_false, if_true]
          · have hdb2 : fsLookup (fsInsert fs (render (variantPath base k)) c)
                (render base) = some d := by
              rw [fsLookup_insert, if_neg hbq]; exact hd
            have hid3 : files_are_identical (fsInsert fs (render (variantPath base k)) c)
                src2 base = false :=
              files_are_identical_ne _ _ _ c d hsrc2 hdb2 (fun hcd => hdnec hcd.symm)
            simp only [hexb2, hid3, Bool.not_true, Bool.false_eq_true, if_false]
            obtain ⟨q', hq'⟩ := tryVariants_finds_dup
              (fsInsert fs (render (variantPath base k)) c) src2 base pre k post
              (fun j hj => pexists_insert_mono fs _ c _ (hpre j hj).1)
              ((pexists_iff _ _).mpr ⟨c, hvk⟩)
              (files_are_identical_of _ _ _ c hsrc2 hvk)
            rw [hks]
            simp [hq']
      | none =>
        simp only [htv] at hfind
        have hvar := tryVariants_none_mem fs src1 base htv
        have hvarne : ∀ j ∈ List.range' 2 9,
            ∃ e, fsLookup fs (render (variantPath base j)) = some e ∧ e ≠ c := by
          intro j hj
          obtain ⟨e, he⟩ := (pexists_iff _ _).mp (hvar j hj).1
          refine ⟨e, he, ?_⟩
          intro hec
          rw [hec] at he
          have hcontr := files_are_identical_of fs src1 (variantPath base j) c h1 he
          rw [(hvar j hj).2] at hcontr
          exact Bool.noConfusion hcontr
        cases hup : pexists fs (uuidPath base uuid) &&
            files_are_identical fs src1 (uuidPath base uuid) with
        | true =>
          rw [hup, if_pos rfl, Prod.mk.injEq] at hfind
          obtain ⟨rfl, rfl⟩ := hfind
          show (find_available_path fs src2 base uuid).2 = true
          have hand : pexists fs (uuidPath base uuid) = true ∧
              files_are_identical fs src1 (uuidPath base uuid) = true := by
            simpa using hup
          obtain ⟨e, he1, heu⟩ :=
            (files_are_identical_iff fs src1 (uuidPath base uuid)).mp hand.2
          rw [h1] at he1
          obtain rfl := Option.some.inj he1
          rw [find_available_path]
          simp only [hex, hid2, Bool.not_true, Bool.false_eq_true, if_false]
          have htv2 : tryVariants fs src2 base (List.range' 2 9) = none := by
            apply tryVariants_none_of
            intro j hj
            obtain ⟨e', he', hne'⟩ := hvarne j hj
            exact ⟨(hvar j hj).1,
              files_are_identical_ne _ _ _ c e' h2 he' (fun hc => hne' hc.symm)⟩
          simp only [htv2]
          have hid3 : files_are_identical fs src2 (uuidPath base uuid) = true :=
            files_are_identical_of _ _ _ c h2 heu
          simp [hand.1, hid3]
        | false =>
          rw [hup, if_neg (by simp), Prod.mk.injEq] at hfind
          obtain ⟨rfl, rfl⟩ := hfind
          simp only [Bool.false_eq_true, if_false]
          have hsrc2 : fsLookup (fsInsert fs (render (uuidPath base uuid)) c)
              (render src2) = some c := by
            rw [fsLookup_insert]
            by_cases hk : render src2 = render (uuidPath base uuid)
            · rw [if_pos hk]
            · rw [if_neg hk]; exact h2
          have hup2 : fsLookup (fsInsert fs (render (uuidPath base uuid)) c)
              (render (uuidPath base uuid)) = some c := by
            rw [fsLookup_insert, if_pos rfl]
          have hexb2 : pexists (fsInsert fs (render (uuidPath base uuid)) c) base = true :=
            pexists_insert_mono fs _ c base hex
          rw [find_available_path]
          by_cases hbu : render base = render (uuidPath base uuid)
          · have hid3 : files_are_identical (fsInsert fs (render (uuidPath base uuid)) c)
                src2 base = true :=
              files_are_identical_of _ _ _ c hsrc2 (by rw [fsLookup_insert, if_pos hbu])
            simp only [hexb2, hid3, Bool.not_true, Bool.false_eq_true, if_false, if_true]
          · have hdb2 : fsLookup (fsInsert fs (render (uuidPath base uuid)) c)
                (render base) = some d := by
              rw [fsLookup_insert, if_neg hbu]; exact hd
            have hid3 : files_are_identical (fsInsert fs (render (uuidPath base uuid)) c)
                src2 base = false :=
              files_are_identical_ne _ _ _ c d hsrc2 hdb2 (fun hcd => hdnec hcd.symm)
            simp only [hexb2, hid3, Bool.not_true, Bool.false_eq_true, if_false]
            rcases tryVariants_all_exist (fsInsert fs (render (uuidPath base uuid)) c)
                src2 base
                (fun j hj => pexists_insert_mono fs _ c _ (hvar j hj).1) with htv2 | ⟨q', hq'⟩
            · simp only [htv2]
              have hupe : pexists (fsInsert fs (render (uuidPath base uuid)) c)
                  (uuidPath base uuid) = true := (pexists_iff _ _).mpr ⟨c, hup2⟩
              have hid4 : files_are_identical (fsInsert fs (render (uuidPath base uuid)) c)
                  src2 (uuidPath base uuid) = true :=
                files_are_identical_of _ _ _ c hsrc2 hup2
              simp [hupe, hid4]
            · simp [hq']

/-- C8: the file organizer is deterministic (it is a pure function of the
tree and the inputs, so resolving twice against a fixed state yields the
same `FileSlot`); and after a first source file with contents `c` has
been placed by `copy_and_organize_file`, a second source file with
byte-identical contents targeting the same base path resolves to
`is_duplicate = true`, and the second copy call performs no copy: the
tree is unchanged, `files_copied` is not incremented, and the file is
counted as skipped. -/
theorem c8_file_organizer_determinism_and_dedup (fs : FS) (stats stats2 : Stats)
    (src1 src2 base : FPath) (uuid : String) (c : List Nat)
    (h1 : fsLookup fs (render src1) = some c)
    (h2 : fsLookup fs (render src2) = some c) :
    find_available_path fs src1 base uuid = find_available_path fs src1 base uuid ∧
    (find_available_path (copy_and_organize_file false fs stats src1 base uuid).1
        src2 base uuid).2 = true ∧
    (copy_and_organize_file false (copy_and_organize_file false fs stats src1 base uuid).1
        stats2 src2 base uuid).1 =
      (copy_and_organize_file false fs stats src1 base uuid).1 ∧
    (copy_and_organize_file false (copy_and_organize_file false fs stats src1 base uuid).1
        stats2 src2 base uuid).2.1.files_copied = stats2.files_copied ∧
    (copy_and_organize_file false (copy_and_organize_file false fs stats src1 base uuid).1
        stats2 src2 base uuid).2.1.files_skipped = stats2.files_skipped + 1 := by
  obtain ⟨p, b, hfp⟩ : ∃ p b, find_available_path fs src1 base uuid = (p, b) := ⟨_, _, rfl⟩
  have hfs1 : (copy_and_organize_file false fs stats src1 base uuid).1 =
      (if b then fs else fsInsert fs (render p) c) := by
    rw [copy_and_organize_file]
    simp only [h1, hfp]
    cases b with
    | true => simp
    | false => simp
  have hdup := find_available_path_dup_after_place fs src1 src2 base uuid c p b h1 h2 hfp
  have hsrc2' : fsLookup (if b then fs else fsInsert fs (render p) c) (render src2)
      = some c := by
    cases b with
    | true => simpa using h2
    | false =>
      simp only [Bool.false_eq_true, if_false, fsLookup_insert]
      by_cases hk : render src2 = render p
      · rw [if_pos hk]
      · rw [if_neg hk]; exact h2
  have hcopy2 : copy_and_organize_file false (if b then fs else fsInsert fs (render p) c)
      stats2 src2 base uuid =
      ((if b then fs else fsInsert fs (render p) c),
        { stats2 with files_found := stats2.files_found + 1,
                      files_skipped := stats2.files_skipped + 1 },
        some (find_available_path (if b then fs else fsInsert fs (render p) c)
          src2 base uuid).1) := by
    rw [copy_and_organize_file]
    simp only [hsrc2', hdup, if_true]
  rw [hfs1]
  exact ⟨rfl, hdup, by rw [hcopy2], by rw [hcopy2], by rw [hcopy2]⟩

/-- Witness for C8 at a concrete input: two distinct sources with the
same contents `[7]`; the first is copied to the (previously missing) base
path, the second then resolves as a duplicate of it. -/
theorem c8_file_organizer_determinism_and_dedup_witness :
    (find_available_path
        (copy_and_organize_file false
          [(("s1/a.pdf" : String), ([7] : List Nat)), ("s2/b.pdf", [7])] {}
          ⟨"s1", "a", ".pdf"⟩ ⟨"d", "T", ".pdf"⟩ "U").1
        ⟨"s2", "b", ".pdf"⟩ ⟨"d", "T", ".pdf"⟩ "U").2 = true :=
  (c8_file_organizer_determinism_and_dedup
    [("s1/a.pdf", [7]), ("s2/b.pdf", [7])] {} {}
    ⟨"s1", "a", ".pdf"⟩ ⟨"s2", "b", ".pdf"⟩ ⟨"d", "T", ".pdf"⟩ "U" [7]
    (by decide) (by decide)).2.1

/-! ## Zotero database model

Tables touched by the migrator become lists of rows; `lastrowid` is
modelled as `max existing id + 1` (rows are never deleted during a run);
the in-memory id maps (`collection_map`, `item_map`, `creator_map`,
`tag_map`) are association lists where insertion prepends, matching dict
overwrite-and-lookup semantics. -/

structure ItemRow where
  itemID : Nat
  itemTypeID : Nat
  key : String
  dateAdded : String
  dateModified : String
deriving Repr, DecidableEq

structure CreatorRow where
  creatorID : Nat
  firstName : String
  lastName : String
deriving Repr, DecidableEq

structure CollectionRow where
  collectionID : Nat
  collectionName : String
  parentCollectionID : Option Nat
  key : String
deriving Repr, DecidableEq

structure ZDb where
  items : List ItemRow := []
  itemDataValues : List (Nat × String) := []        -- (valueID, value)
  itemData : List (Nat × Nat × Nat) := []           -- (itemID, fieldID, valueID)
  creators : List CreatorRow := []
  itemCreators : List (Nat × Nat × Nat × Nat) := [] -- (itemID, creatorID, creatorTypeID, orderIndex)
  tags : List (Nat × String) := []                  -- (tagID, name)
  itemTags : List (Nat × Nat) := []                 -- (itemID, tagID)
  collections : List CollectionRow := []
  collectionItems : List (Nat × Nat) := []          -- (collectionID, itemID)
  itemAttachments : List (Nat × Nat × String) := [] -- (itemID, parentItemID, path)
deriving Repr, DecidableEq

/-- SQLite `lastrowid` model: one more than the largest existing rowid. -/
def nextId (ids : List Nat) : Nat := ids.foldr max 0 + 1

/-- The migrator's mutable per-run state: the connected database, the four
in-memory id maps, the statistics, the destination file tree, and a
counter of `generate_key` calls made so far. -/
structure RunState where
  db : ZDb := {}
  collectionMap : List (String × Nat) := []
  itemMap : List (String × Nat) := []
  creatorMap : List (String × Nat) := []
  tagMap : List (String × Nat) := []
  stats : Stats := {}
  fs : FS := []
  keyCounter : Nat := 0
deriving Repr, DecidableEq

/-- Run environment: the ambient wall clock (`datetime.now().isoformat()`)
and the random draw streams consumed by successive `generate_key` calls. -/
structure Env where
  now : String
  keyStream : Nat → Nat → Nat

/-- The key produced by the `n`-th `generate_key()` call of the run. -/
def envKey (env : Env) (n : Nat) : String := generate_key (env.keyStream n)

/-- `ITEM_TYPE_MAP` (class attribute). -/
def ITEM_TYPE_MAP : List (String × Nat) :=
  [("article", 22), ("periodical", 22), ("book", 7), ("report", 34), ("patent", 29),
   ("media", 14), ("conference", 11), ("website", 40), ("manual", 14), ("thesis", 37)]

/-- `FIELD_IDS` (class attribute). -/
def FIELD_IDS : List (String × Nat) :=
  [("title", 1), ("abstractNote", 2), ("date", 6), ("url", 13), ("extra", 16),
   ("volume", 19), ("pages", 32), ("DOI", 59), ("issue", 76), ("publicationTitle", 5),
   ("publisher", 20), ("place", 7), ("ISBN", 69), ("ISSN", 71), ("language", 78),
   ("shortTitle", 115), ("accessDate", 65)]

/-- `CREATOR_TYPE_MAP` (class attribute). -/
def CREATOR_TYPE_MAP : List (String × Nat) :=
  [("author", 8), ("editor", 10), ("translator", 11), ("contributor", 2)]

/-- `get_or_create_creator(firstName, lastName)`: in-run cache keyed by
`f"{firstName}|{lastName}"`, then `SELECT creatorID FROM creators WHERE
firstName = ? AND lastName = ?`, then `INSERT`; a first-time insert
increments `stats['creators']`. -/
def get_or_create_creator (st : RunState) (firstName lastName : String) :
    RunState × Nat :=
  let key := firstName ++ "|" ++ lastName
  match st.creatorMap.lookup key with
  | some creatorId => (st, creatorId)
  | none =>
    match st.db.creators.find?
        (fun r => r.firstName == firstName && r.lastName == lastName) with
    | some r =>
      ({ st with creatorMap := (key, r.creatorID) :: st.creatorMap }, r.creatorID)
    | none =>
      let creatorId := nextId (st.db.creators.map (fun r => r.creatorID))
      ({ st with
          db := { st.db with
            creators := st.db.creators ++ [⟨creatorId, firstName, lastName⟩] },
          creatorMap := (key, creatorId) :: st.creatorMap,
          stats := { st.stats with creators := st.stats.creators + 1 } }, creatorId)

/-- `get_or_create_tag(tag_name)`: in-run cache keyed by the name, then
`SELECT tagID FROM tags WHERE name = ?`, then `INSERT`; a first-time
insert increments `stats['tags']`. -/
def get_or_create_tag (st : RunState) (tagName : String) : RunState × Nat :=
  match st.tagMap.lookup tagName with
  | some tagId => (st, tagId)
  | none =>
    match st.db.tags.find? (fun r => r.2 == tagName) with
    | some r =>
      ({ st with tagMap := (tagName, r.1) :: st.tagMap }, r.1)
    | none =>
      let tagId := nextId (st.db.tags.map (fun r => r.1))
      ({ st with
          db := { st.db with tags := st.db.tags ++ [(tagId, tagName)] },
          tagMap := (tagName, tagId) :: st.tagMap,
          stats := { st.stats with tags := st.stats.tags + 1 } }, tagId)

/-- `add_item_data(item_id, field_name, value)`: skip `None`/empty values
and unknown fields; intern the value in `itemDataValues`; link it in
`itemData` unless a row for `(itemID, fieldID)` already exists (the
`sqlite3.IntegrityError` on the table's primary key, caught and
ignored). -/
def add_item_data (st : RunState) (itemId : Nat) (fieldName : String)
    (value : Option String) : RunState :=
  match value with
  | none => st
  | some v =>
    if v = "" then st
    else
      match FIELD_IDS.lookup fieldName with
      | none => st
      | some fieldId =>
        let stv : RunState × Nat :=
          match st.db.itemDataValues.find? (fun r => r.2 == v) with
          | some r => (st, r.1)
          | none =>
            let valueId := nextId (st.db.itemDataValues.map (fun r => r.1))
            ({ st with db := { st.db with
                itemDataValues := st.db.itemDataValues ++ [(valueId, v)] } }, valueId)
        let st := stv.1
        let valueId := stv.2
        if (st.db.itemData.find? (fun r => r.1 == itemId && r.2.1 == fieldId)).isSome
        then st
        else { st with db := { st.db with
            itemData := st.db.itemData ++ [(itemId, fieldId, valueId)] } }

/-! ### Helper lemmas for the value interner -/

theorem get_or_create_creator_map_after (st : RunState) (f l : String) :
    ((get_or_create_creator st f l).1).creatorMap.lookup (f ++ "|" ++ l) =
      some (get_or_create_creator st f l).2 := by
  rw [get_or_create_creator]
  cases hm : st.creatorMap.lookup (f ++ "|" ++ l) with
  | some creatorId => simp [hm]
  | none =>
    cases hf : st.db.creators.find?
        (fun r => r.firstName == f && r.lastName == l) with
    | some r => simp [hf, List.lookup]
    | none => simp [hf, List.lookup]

theorem get_or_create_creator_idem (st : RunState) (f l : String) :
    get_or_create_creator (get_or_create_creator st f l).1 f l =
      ((get_or_create_creator st f l).1, (get_or_create_creator st f l).2) := by
  have h := get_or_create_creator_map_after st f l
  rw [get_or_create_creator]
  simp only [h]

theorem get_or_create_creator_rows (st : RunState) (f l : String) :
    ((get_or_create_creator st f l).1.db.creators = st.db.creators ∧
      (get_or_create_creator st f l).1.stats.creators = st.stats.creators) ∨
    ((get_or_create_creator st f l).1.db.creators =
        st.db.creators ++
          [⟨nextId (st.db.creators.map (fun r => r.creatorID)), f, l⟩] ∧
      (get_or_create_creator st f l).1.stats.creators = st.stats.creators + 1) := by
  rw [get_or_create_creator]
  cases hm : st.creatorMap.lookup (f ++ "|" ++ l) with
  | some creatorId => exact Or.inl ⟨rfl, rfl⟩
  | none =>
    cases hf : st.db.creators.find?
        (fun r => r.firstName == f && r.lastName == l) with
    | some r => exact Or.inl ⟨rfl, rfl⟩
    | none => exact Or.inr ⟨rfl, rfl⟩

theorem get_or_create_creator_reuse (st : RunState) (f l : String) (r : CreatorRow)
    (hm : st.creatorMap.lookup (f ++ "|" ++ l) = none)
    (hf : st.db.creators.find? (fun x => x.firstName == f && x.lastName == l) = some r) :
    (get_or_create_creator st f l).2 = r.creatorID ∧
    (get_or_create_creator st f l).1.db = st.db ∧
    (get_or_create_creator st f l).1.stats = st.stats := by
  rw [get_or_create_creator]
  simp [hm, hf]

theorem get_or_create_tag_map_after (st : RunState) (tn : String) :
    ((get_or_create_tag st tn).1).tagMap.lookup tn = some (get_or_create_tag st tn).2 := by
  rw [get_or_create_tag]
  cases hm : st.tagMap.lookup tn with
  | some tagId => simp [hm]
  | none =>
    cases hf : st.db.tags.find? (fun r => r.2 == tn) with
    | some r => simp [hf, List.lookup]
    | none => simp [hf, List.lookup]

theorem get_or_create_tag_idem (st : RunState) (tn : String) :
    get_or_create_tag (get_or_create_tag st tn).1 tn =
      ((get_or_create_tag st tn).1, (get_or_create_tag st tn).2) := by
  have h := get_or_create_tag_map_after st tn
  rw [get_or_create_tag]
  simp only [h]

theorem get_or_create_tag_rows (st : RunState) (tn : String) :
    ((get_or_create_tag st tn).1.db.tags = st.db.tags ∧
      (get_or_create_tag st tn).1.stats.tags = st.stats.tags) ∨
    ((get_or_create_tag st tn).1.db.tags =
        st.db.tags ++ [(nextId (st.db.tags.map (fun r => r.1)), tn)] ∧
      (get_or_create_tag st tn).1.stats.tags = st.stats.tags + 1) := by
  rw [get_or_create_tag]
  cases hm : st.tagMap.lookup tn with
  | some tagId => exact Or.inl ⟨rfl, rfl⟩
  | none =>
    cases hf : st.db.tags.find? (fun r => r.2 == tn) with
    | some r => exact Or.inl ⟨rfl, rfl⟩
    | none => exact Or.inr ⟨rfl, rfl⟩

theorem get_or_create_tag_reuse (st : RunState) (tn : String) (r : Nat × String)
    (hm : st.tagMap.lookup tn = none)
    (hf : st.db.tags.find? (fun x => x.2 == tn) = some r) :
    (get_or_create_tag st tn).2 = r.1 ∧
    (get_or_create_tag st tn).1.db = st.db ∧
    (get_or_create_tag st tn).1.stats = st.stats := by
  rw [get_or_create_tag]
  simp [hm, hf]

/-! ### Claim theorems: C7 -/

/-- C7: the value interner is idempotent per natural key.  For creators:
resolving the same `(firstName, lastName)` twice returns the same id both
times and the second call changes nothing; one call inserts at most one
row for the natural key, incrementing the creation counter exactly when
it inserts; and when the in-run cache misses but a store row with that
natural key exists, the row is reused (its id is returned, no row is
inserted, no counter bump).  The same holds for tags keyed by name. -/
theorem c7_value_interner_idempotent (st : RunState) (f l tn : String) :
    (get_or_create_creator (get_or_create_creator st f l).1 f l =
        ((get_or_create_creator st f l).1, (get_or_create_creator st f l).2)) ∧
    (((get_or_create_creator st f l).1.db.creators = st.db.creators ∧
        (get_or_create_creator st f l).1.stats.creators = st.stats.creators) ∨
      ((get_or_create_creator st f l).1.db.creators =
          st.db.creators ++
            [⟨nextId (st.db.creators.map (fun r => r.creatorID)), f, l⟩] ∧
        (get_or_create_creator st f l).1.stats.creators = st.stats.creators + 1)) ∧
    (∀ r : CreatorRow, st.creatorMap.lookup (f ++ "|" ++ l) = none →
      st.db.creators.find? (fun x => x.firstName == f && x.lastName == l) = some r →
      (get_or_create_creator st f l).2 = r.creatorID ∧
      (get_or_create_creator st f l).1.db = st.db ∧
      (get_or_create_creator st f l).1.stats = st.stats) ∧
    (get_or_create_tag (get_or_create_tag st tn).1 tn =
        ((get_or_create_tag st tn).1, (get_or_create_tag st tn).2)) ∧
    (((get_or_create_tag st tn).1.db.tags = st.db.tags ∧
        (get_or_create_tag st tn).1.stats.tags = st.stats.tags) ∨
      ((get_or_create_tag st tn).1.db.tags =
          st.db.tags ++ [(nextId (st.db.tags.map (fun r => r.1)), tn)] ∧
        (get_or_create_tag st tn).1.stats.tags = st.stats.tags + 1)) ∧
    (∀ r : Nat × String, st.tagMap.lookup tn = none →
      st.db.tags.find? (fun x => x.2 == tn) = some r →
      (get_or_create_tag st tn).2 = r.1 ∧
      (get_or_create_tag st tn).1.db = st.db ∧
      (get_or_create_tag st tn).1.stats = st.stats) :=
  ⟨get_or_create_creator_idem st f l,
   get_or_create_creator_rows st f l,
   fun r hm hf => get_or_create_creator_reuse st f l r hm hf,
   get_or_create_tag_idem st tn,
   get_or_create_tag_rows st tn,
   fun r hm hf => get_or_create_tag_reuse st tn r hm hf⟩

/-- Witness for C7 at a concrete state: the store already holds creator
row (5, "Jane", "Smith") and tag row (3, "ml"); with empty caches, both
are reused: the resolved ids are 5 and 3 and the store is unchanged. -/
theorem c7_value_interner_idempotent_witness :
    (get_or_create_creator
        { db := { creators := [⟨5, "Jane", "Smith"⟩], tags := [(3, "ml")] } }
        "Jane" "Smith").2 = 5 ∧
    (get_or_create_tag
        { db := { creators := [⟨5, "Jane", "Smith"⟩], tags := [(3, "ml")] } }
        "ml").2 = 3 := by
  have h := c7_value_interner_idempotent
    { db := { creators := [⟨5, "Jane", "Smith"⟩], tags := [(3, "ml")] } }
    "Jane" "Smith" "ml"
  refine ⟨?_, ?_⟩
  · exact (h.2.2.1 ⟨5, "Jane", "Smith"⟩ (by decide) (by decide)).1
  · exact (h.2.2.2.2.2 (3, "ml") (by decide) (by decide)).1

/-! ## Collection hierarchy import

Embeds `migrate_collections` with its nested `get_or_create_collection`
and `import_collection`.  The `try/except` around `import_collection` has
no raising operation in this model (nothing in `get_or_create_collection`
can fail), so its error branch is dead code here. -/

structure CollNode where
  uuid : String
  name : String
  children : List CollNode
deriving Repr

/-- The two `SELECT collectionID FROM collections WHERE collectionName = ?
AND parentCollectionID ...` queries of `get_or_create_collection`,
selected by the truthiness of `parent_id` (`if parent_id:`). -/
def lookupCollection (rows : List CollectionRow) (name : String)
    (parentId : Option Nat) : Option Nat :=
  if pyNatTruthy parentId then
    (rows.find? (fun r => r.collectionName == name &&
      r.parentCollectionID == parentId)).map (fun r => r.collectionID)
  else
    (rows.find? (fun r => r.collectionName == name &&
      r.parentCollectionID == none)).map (fun r => r.collectionID)

/-- `get_or_create_collection(name, parent_id)`: reuse a collection with
the same name and parent, else insert one with a fresh key, version 0,
unsynced, incrementing `stats['collections']`. -/
def get_or_create_collection (env : Env) (st : RunState) (name : String)
    (parentId : Option Nat) : RunState × Nat :=
  match lookupCollection st.db.collections name parentId with
  | some collectionId => (st, collectionId)
  | none =>
    let collectionId := nextId (st.db.collections.map (fun r => r.collectionID))
    ({ st with
        db := { st.db with collections := st.db.collections ++
          [⟨collectionId, name, parentId, envKey env st.keyCounter⟩] },
        keyCounter := st.keyCounter + 1,
        stats := { st.stats with collections := st.stats.collections + 1 } },
      collectionId)

mutual
/-- `import_collection(collection, parent_id)`: resolve or create this
node, record the uuid ↦ id mapping, then recurse into the children with
this node's id as parent. -/
def import_collection (env : Env) (st : RunState) (c : CollNode)
    (parentId : Option Nat) : RunState :=
  let sc := get_or_create_collection env st c.name parentId
  let st1 := { sc.1 with collectionMap := (c.uuid, sc.2) :: sc.1.collectionMap }
  import_children env st1 c.children sc.2
termination_by sizeOf c
decreasing_by
  cases c with
  | mk u n cs => simp

/-- The `for child in collection.get('children', [])` loop. -/
def import_children (env : Env) (st : RunState) :
    List CollNode → Nat → RunState
  | [], _ => st
  | c :: rest, parentId =>
    import_children env (import_collection env st c (some parentId)) rest parentId
termination_by cs _ => sizeOf cs
end

/-- `migrate_collections`: import each root collection in order. -/
def migrate_collections (env : Env) (st : RunState) (roots : List CollNode) :
    RunState :=
  roots.foldl (fun s c => import_collection env s c none) st

/-! ### Helper lemmas for the hierarchy importer -/

/-- Well-formed stores assign positive rowids (as SQLite does); needed
because `if parent_id:` conflates a parent id of 0 with "no parent". -/
def CollIdsPos (rows : List CollectionRow) : Prop :=
  ∀ r ∈ rows, 1 ≤ r.collectionID

/-- A valid parent argument: absent, or a positive id. -/
def ParentOk : Option Nat → Prop
  | none => True
  | some k => 1 ≤ k

/-- Every name/parent resolution possible in `rows1` gives the same
answer in `rows2`. -/
def LookupStable (rows1 rows2 : List CollectionRow) : Prop :=
  ∀ name parentId i, lookupCollection rows1 name parentId = some i →
    lookupCollection rows2 name parentId = some i

theorem find?_map_append {α β : Type} (rows ext : List α) (p : α → Bool)
    (g : α → β) (i : β) (h : (rows.find? p).map g = some i) :
    ((rows ++ ext).find? p).map g = some i := by
  rw [List.find?_append]
  cases hf : rows.find? p with
  | none => rw [hf] at h; simp at h
  | some r =>
    rw [hf] at h
    simpa [Option.or] using h

theorem lookupCollection_append (rows ext : List CollectionRow) (name : String)
    (parentId : Option Nat) (i : Nat)
    (h : lookupCollection rows name parentId = some i) :
    lookupCollection (rows ++ ext) name parentId = some i := by
  unfold lookupCollection at h ⊢
  by_cases ht : pyNatTruthy parentId = true
  · rw [if_pos ht] at h ⊢
    exact find?_map_append rows ext _ _ i h
  · rw [if_neg ht] at h ⊢
    exact find?_map_append rows ext _ _ i h

theorem LookupStable_append (rows ext : List CollectionRow) :
    LookupStable rows (rows ++ ext) :=
  fun name parentId i h => lookupCollection_append rows ext name parentId i h

theorem LookupStable_refl (rows : List CollectionRow) : LookupStable rows rows :=
  fun _ _ _ h => h

theorem lookupCollection_pos (rows : List CollectionRow) (name : String)
    (parentId : Option Nat) (i : Nat) (hwf : CollIdsPos rows)
    (h : lookupCollection rows name parentId = some i) : 1 ≤ i := by
  unfold lookupCollection at h
  by_cases ht : pyNatTruthy parentId = true
  · rw [if_pos ht] at h
    cases hf : rows.find? (fun r => r.collectionName == name &&
        r.parentCollectionID == parentId) with
    | none => rw [hf] at h; simp at h
    | some r =>
      rw [hf] at h
      obtain rfl := Option.some.inj (by simpa using h)
      exact hwf r (List.mem_of_find?_eq_some hf)
  · rw [if_neg ht] at h
    cases hf : rows.find? (fun r => r.collectionName == name &&
        r.parentCollectionID == none) with
    | none => rw [hf] at h; simp at h
    | some r =>
      rw [hf] at h
      obtain rfl := Option.some.inj (by simpa using h)
      exact hwf r (List.mem_of_find?_eq_some hf)

theorem nextId_pos (ids : List Nat) : 1 ≤ nextId ids := by
  unfold nextId
  omega

theorem CollIdsPos_append (rows ext : List CollectionRow)
    (h1 : CollIdsPos rows) (h2 : CollIdsPos ext) : CollIdsPos (rows ++ ext) := by
  intro r hr
  rcases List.mem_append.mp hr with h | h
  · exact h1 r h
  · exact h2 r h

theorem get_or_create_collection_hit (env : Env) (st : RunState) (name : String)
    (parentId : Option Nat) (i : Nat)
    (h : lookupCollection st.db.collections name parentId = some i) :
    get_or_create_collection env st name parentId = (st, i) := by
  rw [get_or_create_collection, h]

theorem get_or_create_collection_miss (env : Env) (st : RunState) (name : String)
    (parentId : Option Nat)
    (h : lookupCollection st.db.collections name parentId = none) :
    get_or_create_collection env st name parentId =
      ({ st with
          db := { st.db with collections := st.db.collections ++
            [⟨nextId (st.db.collections.map (fun r => r.collectionID)), name, parentId,
              envKey env st.keyCounter⟩] },
          keyCounter := st.keyCounter + 1,
          stats := { st.stats with collections := st.stats.collections + 1 } },
        nextId (st.db.collections.map (fun r => r.collectionID))) := by
  rw [get_or_create_collection, h]

theorem lookupCollection_insert_self (rows : List CollectionRow) (name : String)
    (parentId : Option Nat) (i : Nat) (key : String) (hpar : ParentOk parentId)
    (h : lookupCollection rows name parentId = none) :
    lookupCollection (rows ++ [⟨i, name, parentId, key⟩]) name parentId = some i := by
  unfold lookupCollection at h ⊢
  by_cases ht : pyNatTruthy parentId = true
  · rw [if_pos ht] at h ⊢
    have hf : rows.find? (fun r => r.collectionName == name &&
        r.parentCollectionID == parentId) = none := by
      cases hf' : rows.find? (fun r => r.collectionName == name &&
          r.parentCollectionID == parentId) with
      | none => rfl
      | some r => rw [hf'] at h; simp at h
    rw [List.find?_append, hf]
    simp [Option.or]
  · rw [if_neg ht] at h ⊢
    have hnone : parentId = none := by
      cases parentId with
      | none => rfl
      | some k =>
        exfalso
        have hk : 1 ≤ k := hpar
        simp [pyNatTruthy] at ht
        omega
    subst hnone
    have hf : rows.find? (fun r => r.collectionName == name &&
        r.parentCollectionID == none) = none := by
      cases hf' : rows.find? (fun r => r.collectionName == name &&
          r.parentCollectionID == none) with
      | none => rfl
      | some r => rw [hf'] at h; simp at h
    rw [List.find?_append, hf]
    simp [Option.or]

/-- The parts of the run state the hierarchy importer must not touch
(used as a frame condition by the orchestrator claims). -/
def CoreFrame (st st' : RunState) : Prop :=
  st'.db.items = st.db.items ∧ st'.stats.items = st.stats.items ∧
  st'.stats.errors = st.stats.errors

theorem CoreFrame_refl (st : RunState) : CoreFrame st st := ⟨rfl, rfl, rfl⟩

theorem CoreFrame_trans {a b c : RunState} (h1 : CoreFrame a b) (h2 : CoreFrame b c) :
    CoreFrame a c :=
  ⟨h2.1.trans h1.1, h2.2.1.trans h1.2.1, h2.2.2.trans h1.2.2⟩

theorem import_collection_unfold_hit (env : Env) (st : RunState)
    (u nm : String) (children : List CollNode) (p : Option Nat) (i : Nat)
    (hl : lookupCollection st.db.collections nm p = some i) :
    import_collection env st ⟨u, nm, children⟩ p =
      import_children env { st with collectionMap := (u, i) :: st.collectionMap }
        children i := by
  rw [import_collection]
  simp only [get_or_create_collection_hit env st nm p i hl]

theorem import_collection_unfold_miss (env : Env) (st : RunState)
    (u nm : String) (children : List CollNode) (p : Option Nat)
    (hl : lookupCollection st.db.collections nm p = none) :
    import_collection env st ⟨u, nm, children⟩ p =
      import_children env
        { st with
            db := { st.db with collections := st.db.collections ++
              [⟨nextId (st.db.collections.map (fun r => r.collectionID)), nm, p,
                envKey env st.keyCounter⟩] },
            collectionMap := (u, nextId (st.db.collections.map (fun r => r.collectionID))) ::
              st.collectionMap,
            stats := { st.stats with collections := st.stats.collections + 1 },
            keyCounter := st.keyCounter + 1 }
        children (nextId (st.db.collections.map (fun r => r.collectionID))) := by
  rw [import_collection]
  simp only [get_or_create_collection_miss env st nm p hl]

theorem import_children_nil (env : Env) (st : RunState) (pid : Nat) :
    import_children env st [] pid = st := by
  rw [import_children]

theorem import_children_cons (env : Env) (st : RunState) (c : CollNode)
    (rest : List CollNode) (pid : Nat) :
    import_children env st (c :: rest) pid =
      import_children env (import_collection env st c (some pid)) rest pid := by
  conv_lhs => rw [import_children]

/-- Induction package for the tree walk: one import appends `ext` to the
collections table, prepends `m` to the id map, leaves the frame alone and
preserves well-formedness; and replaying the same node against any store
in which the run's final resolutions are stable (in particular against
the run's own final store) changes nothing except prepending the same
map entries. -/
def ImportCollectionOK (c : CollNode) : Prop :=
  ∀ (env : Env) (st : RunState) (p : Option Nat),
    CollIdsPos st.db.collections → ParentOk p →
    ∃ ext m,
      (import_collection env st c p).db.collections = st.db.collections ++ ext ∧
      (import_collection env st c p).collectionMap = m ++ st.collectionMap ∧
      CoreFrame st (import_collection env st c p) ∧
      CollIdsPos (st.db.collections ++ ext) ∧
      (∀ (env2 : Env) (t : RunState),
        LookupStable (st.db.collections ++ ext) t.db.collections →
        import_collection env2 t c p = { t with collectionMap := m ++ t.collectionMap })

def ImportChildrenOK (cs : List CollNode) : Prop :=
  ∀ (env : Env) (st : RunState) (pid : Nat),
    CollIdsPos st.db.collections → 1 ≤ pid →
    ∃ ext m,
      (import_children env st cs pid).db.collections = st.db.collections ++ ext ∧
      (import_children env st cs pid).collectionMap = m ++ st.collectionMap ∧
      CoreFrame st (import_children env st cs pid) ∧
      CollIdsPos (st.db.collections ++ ext) ∧
      (∀ (env2 : Env) (t : RunState),
        LookupStable (st.db.collections ++ ext) t.db.collections →
        import_children env2 t cs pid = { t with collectionMap := m ++ t.collectionMap })

theorem import_ok_aux : ∀ n : Nat,
    (∀ c : CollNode, sizeOf c ≤ n → ImportCollectionOK c) ∧
    (∀ cs : List CollNode, sizeOf cs ≤ n → ImportChildrenOK cs) := by
  intro n
  induction n with
  | zero =>
    constructor
    · rintro ⟨u, nm, children⟩ hc
      exfalso
      simp at hc
    · rintro (_ | ⟨c, rest⟩) hcs
      · exfalso; simp at hcs
      · exfalso; simp at hcs
  | succ n ih =>
    constructor
    · -- a single node
      rintro ⟨u, nm, children⟩ hc
      have hch : sizeOf children ≤ n := by
        simp at hc
        omega
      have IHc := ih.2 children hch
      intro env st p hwf hp
      cases hl : lookupCollection st.db.collections nm p with
      | some i =>
        have hun := import_collection_unfold_hit env st u nm children p i hl
        have hipos : 1 ≤ i := lookupCollection_pos _ _ _ _ hwf hl
        obtain ⟨ext2, m2, hcols2, hmap2, hframe2, hwf2, hreplay2⟩ :=
          IHc env { st with collectionMap := (u, i) :: st.collectionMap } i hwf hipos
        refine ⟨ext2, m2 ++ [(u, i)], ?_, ?_, ?_, ?_, ?_⟩
        · rw [hun, hcols2]
        · rw [hun, hmap2]
          simp
        · rw [hun]
          exact CoreFrame_trans ⟨rfl, rfl, rfl⟩ hframe2
        · exact hwf2
        · intro env2 t hstable
          have hl2 : lookupCollection t.db.collections nm p = some i :=
            hstable nm p i (lookupCollection_append _ _ _ _ _ hl)
          rw [import_collection_unfold_hit env2 t u nm children p i hl2]
          rw [hreplay2 env2 { t with collectionMap := (u, i) :: t.collectionMap } hstable]
          simp
      | none =>
        have hun := import_collection_unfold_miss env st u nm children p hl
        have hipos : 1 ≤ nextId (st.db.collections.map (fun r => r.collectionID)) :=
          nextId_pos _
        have hwf1 : CollIdsPos (st.db.collections ++
            [⟨nextId (st.db.collections.map (fun r => r.collectionID)), nm, p,
              envKey env st.keyCounter⟩]) := by
          apply CollIdsPos_append _ _ hwf
          intro r hr
          rcases List.mem_singleton.mp hr with rfl
          exact hipos
        obtain ⟨ext2, m2, hcols2, hmap2, hframe2, hwf2, hreplay2⟩ :=
          IHc env
            { st with
                db := { st.db with collections := st.db.collections ++
                  [⟨nextId (st.db.collections.map (fun r => r.collectionID)), nm, p,
                    envKey env st.keyCounter⟩] },
                collectionMap := (u, nextId (st.db.collections.map (fun r => r.collectionID))) ::
                  st.collectionMap,
                stats := { st.stats with collections := st.stats.collections + 1 },
                keyCounter := st.keyCounter + 1 }
            (nextId (st.db.collections.map (fun r => r.collectionID))) hwf1 hipos
        refine ⟨⟨nextId (st.db.collections.map (fun r => r.collectionID)), nm, p,
            envKey env st.keyCounter⟩ :: ext2, m2 ++
              [(u, nextId (st.db.collections.map (fun r => r.collectionID)))],
          ?_, ?_, ?_, ?_, ?_⟩
        · rw [hun, hcols2]
          simp
        · rw [hun, hmap2]
          simp
        · rw [hun]
          exact CoreFrame_trans ⟨rfl, rfl, rfl⟩ hframe2
        · rw [show st.db.collections ++
              (⟨nextId (st.db.collections.map (fun r => r.collectionID)), nm, p,
                envKey env st.keyCounter⟩ :: ext2) =
              (st.db.collections ++
                [⟨nextId (st.db.collections.map (fun r => r.collectionID)), nm, p,
                  envKey env st.keyCounter⟩]) ++ ext2 by simp]
          exact hwf2
        · intro env2 t hstable
          have hstable' : LookupStable ((st.db.collections ++
              [⟨nextId (st.db.collections.map (fun r => r.collectionID)), nm, p,
                envKey env st.keyCounter⟩]) ++ ext2) t.db.collections := by
            rw [List.append_assoc]
            exact hstable
          have hl2 : lookupCollection t.db.collections nm p =
              some (nextId (st.db.collections.map (fun r => r.collectionID))) :=
            hstable' nm p _ (lookupCollection_append _ _ _ _ _
              (lookupCollection_insert_self st.db.collections nm p _ _ hp hl))
          rw [import_collection_unfold_hit env2 t u nm children p _ hl2]
          rw [hreplay2 env2 { t with collectionMap :=
            (u, nextId (st.db.collections.map (fun r => r.collectionID))) ::
              t.collectionMap } hstable']
          simp
    · -- a list of children
      rintro (_ | ⟨c, rest⟩) hcs
      · intro env st pid hwf hpid
        refine ⟨[], [], ?_, ?_, ?_, ?_, ?_⟩
        · rw [import_children_nil]
          simp
        · rw [import_children_nil]
          rfl
        · rw [import_children_nil]
          exact CoreFrame_refl st
        · simpa using hwf
        · intro env2 t hstable
          rw [import_children_nil]
          rfl
      · have hcsize : sizeOf c ≤ n := by
          simp at hcs
          omega
        have hrsize : sizeOf rest ≤ n := by
          simp at hcs
          omega
        have IH1 := ih.1 c hcsize
        have IH2 := ih.2 rest hrsize
        intro env st pid hwf hpid
        obtain ⟨ext1, m1, hcols1, hmap1, hframe1, hwf1, hreplay1⟩ :=
          IH1 env st (some pid) hwf hpid
        obtain ⟨ext2, m2, hcols2, hmap2, hframe2, hwf2, hreplay2⟩ :=
          IH2 env (import_collection env st c (some pid)) pid
            (by rw [hcols1]; exact hwf1) hpid
        refine ⟨ext1 ++ ext2, m2 ++ m1, ?_, ?_, ?_, ?_, ?_⟩
        · rw [import_children_cons, hcols2, hcols1]
          simp
        · rw [import_children_cons, hmap2, hmap1]
          simp
        · rw [import_children_cons]
          exact CoreFrame_trans hframe1 hframe2
        · rw [show st.db.collections ++ (ext1 ++ ext2) =
              (st.db.collections ++ ext1) ++ ext2 by simp]
          rw [← hcols1]
          exact hwf2
        · intro env2 t hstable
          have hstable2 : LookupStable
              ((import_collection env st c (some pid)).db.collections ++ ext2)
              t.db.collections := by
            rw [hcols1, List.append_assoc]
            exact hstable
          have hstable1 : LookupStable (st.db.collections ++ ext1) t.db.collections := by
            intro name q j hj
            apply hstable name q j
            rw [← List.append_assoc]
            exact lookupCollection_append _ _ _ _ _ hj
          rw [import_children_cons, hreplay1 env2 t hstable1]
          rw [hreplay2 env2 { t with collectionMap := m1 ++ t.collectionMap } hstable2]
          simp

theorem importCollectionOK_all (c : CollNode) : ImportCollectionOK c :=
  (import_ok_aux (sizeOf c)).1 c le_rfl

/-- The root loop of `migrate_collections` enjoys the same package as a
single node. -/
theorem migrate_collections_ok (roots : List CollNode) :
    ∀ (env : Env) (st : RunState), CollIdsPos st.db.collections →
    ∃ ext m,
      (migrate_collections env st roots).db.collections = st.db.collections ++ ext ∧
      (migrate_collections env st roots).collectionMap = m ++ st.collectionMap ∧
      CoreFrame st (migrate_collections env st roots) ∧
      CollIdsPos (st.db.collections ++ ext) ∧
      (∀ (env2 : Env) (t : RunState),
        LookupStable (st.db.collections ++ ext) t.db.collections →
        migrate_collections env2 t roots =
          { t with collectionMap := m ++ t.collectionMap }) := by
  induction roots with
  | nil =>
    intro env st hwf
    refine ⟨[], [], by simp [migrate_collections], by rw [migrate_collections]; rfl,
      CoreFrame_refl st, by simpa using hwf, ?_⟩
    intro env2 t hstable
    rw [migrate_collections]
    rfl
  | cons c rest ih =>
    intro env st hwf
    obtain ⟨ext1, m1, hcols1, hmap1, hframe1, hwf1, hreplay1⟩ :=
      importCollectionOK_all c env st none hwf trivial
    obtain ⟨ext2, m2, hcols2, hmap2, hframe2, hwf2, hreplay2⟩ :=
      ih env (import_collection env st c none) (by rw [hcols1]; exact hwf1)
    refine ⟨ext1 ++ ext2, m2 ++ m1, ?_, ?_, ?_, ?_, ?_⟩
    · rw [show migrate_collections env st (c :: rest) =
          migrate_collections env (import_collection env st c none) rest from rfl,
        hcols2, hcols1]
      simp
    · rw [show migrate_collections env st (c :: rest) =
          migrate_collections env (import_collection env st c none) rest from rfl,
        hmap2, hmap1]
      simp
    · rw [show migrate_collections env st (c :: rest) =
          migrate_collections env (import_collection env st c none) rest from rfl]
      exact CoreFrame_trans hframe1 hframe2
    · rw [show st.db.collections ++ (ext1 ++ ext2) =
          (st.db.collections ++ ext1) ++ ext2 by simp, ← hcols1]
      exact hwf2
    · intro env2 t hstable
      have hstable2 : LookupStable
          ((import_collection env st c none).db.collections ++ ext2)
          t.db.collections := by
        rw [hcols1, List.append_assoc]
        exact hstable
      have hstable1 : LookupStable (st.db.collections ++ ext1) t.db.collections := by
        intro name q j hj
        apply hstable name q j
        rw [← List.append_assoc]
        exact lookupCollection_append _ _ _ _ _ hj
      rw [show migrate_collections env2 t (c :: rest) =
          migrate_collections env2 (import_collection env2 t c none) rest from rfl,
        hreplay1 env2 t hstable1]
      rw [hreplay2 env2 { t with collectionMap := m1 ++ t.collectionMap } hstable2]
      simp

/-! ### Claim theorems: C6 -/

/-- The state of a freshly constructed migrator connected to a given
store and file tree: empty maps, zeroed statistics. -/
def initRunState (db : ZDb) (fs₀ : FS) : RunState :=
  { db := db, fs := fs₀ }

/-- C6: the hierarchy importer is idempotent.  Starting from any
well-formed store (positive rowids, as SQLite guarantees) and an empty
id map, importing a container tree and then importing the same tree again
with a fresh migrator against the destination state left by the
first run creates zero new containers — the collections table, and indeed
the whole store, is unchanged, and the second run's created-collections
statistic stays 0 — and returns an id-map identical to the first
run's. -/
theorem c6_hierarchy_importer_idempotent (env env2 : Env) (st : RunState)
    (roots : List CollNode) (hwf : CollIdsPos st.db.collections)
    (hmap : st.collectionMap = []) :
    (migrate_collections env2
        (initRunState (migrate_collections env st roots).db
          (migrate_collections env st roots).fs) roots).db =
      (migrate_collections env st roots).db ∧
    (migrate_collections env2
        (initRunState (migrate_collections env st roots).db
          (migrate_collections env st roots).fs) roots).collectionMap =
      (migrate_collections env st roots).collectionMap ∧
    (migrate_collections env2
        (initRunState (migrate_collections env st roots).db
          (migrate_collections env st roots).fs) roots).stats.collections = 0 := by
  obtain ⟨ext, m, hcols, hmapr, hframe, hwfx, hreplay⟩ :=
    migrate_collections_ok roots env st hwf
  have hstable : LookupStable (st.db.collections ++ ext)
      (initRunState (migrate_collections env st roots).db
        (migrate_collections env st roots).fs).db.collections := by
    rw [show (initRunState (migrate_collections env st roots).db
        (migrate_collections env st roots).fs).db.collections =
      (migrate_collections env st roots).db.collections from rfl, hcols]
    exact LookupStable_refl _
  rw [hreplay env2 _ hstable]
  refine ⟨rfl, ?_, rfl⟩
  rw [hmapr, hmap]
  rfl

/-- Witness for C6 at a concrete input: one root with one child, imported
twice into an empty store; the second run changes nothing and returns the
same two-entry id map. -/
theorem c6_hierarchy_importer_idempotent_witness :
    (migrate_collections { now := "", keyStream := fun _ _ => 1 }
        (initRunState
          (migrate_collections { now := "", keyStream := fun _ _ => 0 } {}
            [⟨"u1", "Root", [⟨"u2", "Child", []⟩]⟩]).db
          (migrate_collections { now := "", keyStream := fun _ _ => 0 } {}
            [⟨"u1", "Root", [⟨"u2", "Child", []⟩]⟩]).fs)
        [⟨"u1", "Root", [⟨"u2", "Child", []⟩]⟩]).collectionMap =
      (migrate_collections { now := "", keyStream := fun _ _ => 0 } {}
        [⟨"u1", "Root", [⟨"u2", "Child", []⟩]⟩]).collectionMap :=
  (c6_hierarchy_importer_idempotent { now := "", keyStream := fun _ _ => 0 }
    { now := "", keyStream := fun _ _ => 1 } {}
    [⟨"u1", "Root", [⟨"u2", "Child", []⟩]⟩]
    (by intro r hr; simp at hr) rfl).2.1

/-! ## Publication migration

Embeds `parse_papers3_date`, `parse_authors`, `migrate_publication`,
`sanitize_filename`, `build_base_path`, `migrate_pdfs` and `migrate`.
A publication is the JSON object produced by the extraction scripts:
every field may be absent (`Option`), and the fields the code accesses
polymorphically (`authors`, `keywords`, `collections`, `pdfs` entries)
are tagged variants. -/

/-- Model of `datetime.fromisoformat(s).strftime('%Y-%m-%d')` restricted
to the `YYYY-MM-DD...` shapes the Papers3 export scripts produce: the
date part is validated and returned; anything else raises (→ `none`).
(CPython's ISO grammar is wider, but the migrator only receives strings
built by the export scripts' own formatters.) -/
def isoDatePart (s : String) : Option String :=
  match s.splitOn "T" with
  | [d, _] =>
    match d.splitOn "-" with
    | [y, mo, dd] =>
      if y.length = 4 ∧ y.data.all Char.isDigit
          ∧ mo.length = 2 ∧ mo.data.all Char.isDigit
          ∧ dd.length = 2 ∧ dd.data.all Char.isDigit
          ∧ (datetimeNew (digitsToNat y.data) (digitsToNat mo.data)
              (digitsToNat dd.data) 0 0 0).isSome
      then some (y ++ "-" ++ mo ++ "-" ++ dd) else none
    | _ => none
  | _ => none

/-- `parse_papers3_date(date_str)`: ISO strings keep their date part,
4-digit years pass through, anything else is returned as-is; a parse
failure returns `None`. -/
def parse_papers3_date (date_str : Option String) : Option String :=
  match date_str with
  | none => none
  | some s =>
    if s.isEmpty then none
    else if s.data.contains 'T' then isoDatePart (s.replace "Z" "+00:00")
    else if s.length = 4 ∧ s.data.all Char.isDigit then some s
    else some s

/-- An entry of `pub['authors']`: a dict (each key optional) or a bare
string. -/
inductive AuthorVal
  | adict (prename surname fullname role : Option String)
  | astr (s : String)
deriving Repr, DecidableEq

/-- One step of `parse_authors`: returns `(firstName, lastName,
creatorType)`. -/
def parse_author_one : AuthorVal → String × String × String
  | .adict prename surname fullname role =>
    (prename.getD "", surname.getD (fullname.getD ""), role.getD "author")
  | .astr a =>
    let parts := a.splitOn ", "
    if parts.length = 2 then (parts.getD 1 "", parts.getD 0 "", "author")
    else ("", a, "author")

def parse_authors (author_list : List AuthorVal) : List (String × String × String) :=
  author_list.map parse_author_one

/-- An entry of `pub['keywords']`: a dict with an optional name, or a
bare string. -/
inductive KwEntry
  | kdict (name : Option String)
  | kstr (s : String)
deriving Repr, DecidableEq

/-- The JSON value under `pub['keywords']`: absent (or empty/null), a
list of entries, or a *truthy non-iterable* value (e.g. a number), which
makes `for keyword in pub['keywords']` raise `TypeError` carrying the
given message. -/
inductive KeywordsVal
  | absent
  | items (l : List KwEntry)
  | nonIterable (errMsg : String)
deriving Repr, DecidableEq

/-- An entry of `pub['collections']`: a dict with an optional
`collection_uuid`, or a bare string. -/
inductive CollRef
  | cdict (collection_uuid : Option String)
  | cstr (s : String)
deriving Repr, DecidableEq

/-- An entry of `pub['pdfs']`: a dict (with optional path, original_path
and caption) or a non-dict value, which the loop skips. -/
inductive PdfVal
  | pdict (path original_path caption : Option String)
  | pother
deriving Repr, DecidableEq

/-- A publication object as loaded from the JSON catalog.  `bundle_title`
is `some t` when `pub['bundle_details']` is a truthy dict with title `t`
(`t = none` for a dict lacking the key); `none` when the key is absent or
falsy. -/
structure ZPub where
  uuid : Option String := none
  ptype : Option String := none
  created_at : Option String := none
  updated_at : Option String := none
  title : Option String := none
  summary : Option String := none
  notes : Option String := none
  publication_date : Option String := none
  doi : Option String := none
  url : Option String := none
  volume : Option String := none
  number : Option String := none
  publisher : Option String := none
  language : Option String := none
  startpage : Option String := none
  endpage : Option String := none
  pages : Option String := none
  bundle_title : Option (Option String) := none
  rating : Option Nat := none
  read_status : Option String := none
  times_cited : Option Nat := none
  authors : List AuthorVal := []
  keywords : KeywordsVal := .absent
  collections : List CollRef := []
  flagged : Bool := false
  pdfs : List PdfVal := []
deriving Repr, DecidableEq

/-- The error-log entry `f"Publication {pub.get('uuid')}: {e}"`. -/
def errEntry (pub : ZPub) (msg : String) : String :=
  "Publication " ++ (match pub.uuid with | none => "None" | some u => u) ++ ": " ++ msg

/-- One iteration of the creators loop (`enumerate(creators)` supplies
the order index). -/
def addOneCreator (itemId : Nat) (st : RunState)
    (e : Nat × String × String × String) : RunState :=
  let sc := get_or_create_creator st e.2.1 e.2.2.1
  let creatorTypeId := (CREATOR_TYPE_MAP.lookup e.2.2.2).getD 8
  { sc.1 with db := { sc.1.db with
      itemCreators := sc.1.db.itemCreators ++ [(itemId, sc.2, creatorTypeId, e.1)] } }

/-- One iteration of the keywords loop, threading the `added_tags` set;
the `itemTags` insert's `IntegrityError` (duplicate `(itemID, tagID)`) is
caught and ignored, modelled as a guarded insert. -/
def addOneTag (itemId : Nat) (acc : RunState × List String) (kw : KwEntry) :
    RunState × List String :=
  let tagName := match kw with
    | .kdict name => name.getD ""
    | .kstr s => s
  if tagName ≠ "" ∧ ¬ acc.2.contains tagName then
    let sc := get_or_create_tag acc.1 tagName
    let added := acc.2 ++ [tagName]
    let st :=
      if (sc.1.db.itemTags.find? (fun r => r.1 == itemId && r.2 == sc.2)).isSome
      then sc.1
      else { sc.1 with db := { sc.1.db with
        itemTags := sc.1.db.itemTags ++ [(itemId, sc.2)] } }
    (st, added)
  else acc

/-- One iteration of the collections loop: look the uuid up in the id map
built by `migrate_collections`, linking only when present. -/
def addOneCollectionRef (itemId : Nat) (st : RunState) (cref : CollRef) : RunState :=
  let collUuid : Option String := match cref with
    | .cdict cu => cu
    | .cstr s => some s
  match collUuid with
  | none => st
  | some cu =>
    match st.collectionMap.lookup cu with
    | none => st
    | some collId =>
      { st with db := { st.db with
          collectionItems := st.db.collectionItems ++ [(collId, itemId)] } }

/-- The `if pub.get('flagged'):` block; `added` is the `added_tags` set
(empty when the keywords branch did not run, per the `locals()` check). -/
def addFlagged (itemId : Nat) (st : RunState) (added : List String) : RunState :=
  if ¬ added.contains "Flagged" then
    let sc := get_or_create_tag st "Flagged"
    if (sc.1.db.itemTags.find? (fun r => r.1 == itemId && r.2 == sc.2)).isSome
    then sc.1
    else { sc.1 with db := { sc.1.db with
      itemTags := sc.1.db.itemTags ++ [(itemId, sc.2)] } }
  else st

/-- The `add_item_data` block of `migrate_publication`: the scalar
fields, the pages logic, and the bundle title. -/
def add_basic_fields (st : RunState) (itemId : Nat) (pub : ZPub) : RunState :=
  let st := add_item_data st itemId "title" pub.title
  let st := add_item_data st itemId "abstractNote" (pyOrStr pub.summary pub.notes)
  let st := add_item_data st itemId "date" (parse_papers3_date pub.publication_date)
  let st := add_item_data st itemId "DOI" pub.doi
  let st := add_item_data st itemId "url" pub.url
  let st := add_item_data st itemId "volume" pub.volume
  let st := add_item_data st itemId "issue" pub.number
  let st := add_item_data st itemId "publisher" pub.publisher
  let st := add_item_data st itemId "language" pub.language
  let st :=
    if pyStrTruthy pub.startpage && pyStrTruthy pub.endpage then
      add_item_data st itemId "pages"
        (some (pub.startpage.getD "" ++ "-" ++ pub.endpage.getD ""))
    else if pyStrTruthy pub.pages then add_item_data st itemId "pages" pub.pages
    else st
  match pub.bundle_title with
  | some bt => add_item_data st itemId "publicationTitle" bt
  | none => st

/-- The Extra-field block: `extra_parts` always contains at least the
Papers3 UUID line, so the `if extra_parts:` guard always passes. -/
def add_extra_field (st : RunState) (itemId : Nat) (pub : ZPub) (u : String) : RunState :=
  let extraParts :=
    (if pyNatTruthy pub.rating then
      ["Rating: " ++ toString (pub.rating.getD 0) ++ "/5"] else []) ++
    (if pyStrTruthy pub.read_status then
      ["Read Status: " ++ pub.read_status.getD ""] else []) ++
    (if pyNatTruthy pub.times_cited then
      ["Times Cited: " ++ toString (pub.times_cited.getD 0)] else []) ++
    ["Papers3 UUID: " ++ u]
  add_item_data st itemId "extra" (some (String.intercalate "\n" extraParts))

/-- The creators block (`if pub.get('authors'):`). -/
def add_creators (st : RunState) (itemId : Nat) (pub : ZPub) : RunState :=
  if pub.authors ≠ [] then
    (parse_authors pub.authors).enum.foldl (addOneCreator itemId) st
  else st

/-- The tail of `migrate_publication` after the keywords block:
collections, the flagged tag, the items counter and the returned id.
`addedTags` is `some s` exactly when the keywords branch ran (so
`added_tags` is in `locals()`). -/
def migrate_publication_rest (st : RunState) (pub : ZPub) (itemId : Nat)
    (addedTags : Option (List String)) : RunState × Option Nat :=
  let st :=
    if pub.collections ≠ [] then
      pub.collections.foldl (addOneCollectionRef itemId) st
    else st
  let st := if pub.flagged then addFlagged itemId st (addedTags.getD []) else st
  ({ st with stats := { st.stats with items := st.stats.items + 1 } }, some itemId)

/-- `migrate_publication(pub)`.  The `try` body's mutations made before an
exception point persist — the `except` branch only logs and returns
`None`, exactly as the Python cursor's earlier inserts are not undone by
the catch.  Exception points realizable in this data model: `pub['uuid']`
raising `KeyError` when the key is absent, and
`for keyword in pub['keywords']` raising `TypeError` when the value is
truthy but not iterable. -/
def migrate_publication (env : Env) (st : RunState) (pub : ZPub) :
    RunState × Option Nat :=
  let pubType := pub.ptype.getD "article"
  let itemTypeId := (ITEM_TYPE_MAP.lookup pubType).getD 14
  let dateAdded := pub.created_at.getD env.now
  let dateModified := pub.updated_at.getD dateAdded
  let itemId := nextId (st.db.items.map (fun r => r.itemID))
  let st := { st with
    db := { st.db with items := st.db.items ++
      [ItemRow.mk itemId itemTypeId (envKey env st.keyCounter) dateAdded dateModified] },
    keyCounter := st.keyCounter + 1 }
  match pub.uuid with
  | none =>
    ({ st with stats := { st.stats with
        errors := st.stats.errors ++ [errEntry pub "'uuid'"] } }, none)
  | some u =>
    let st := { st with itemMap := (u, itemId) :: st.itemMap }
    let st := add_basic_fields st itemId pub
    let st := add_extra_field st itemId pub u
    let st := add_creators st itemId pub
    match pub.keywords with
    | .nonIterable msg =>
      ({ st with stats := { st.stats with
          errors := st.stats.errors ++ [errEntry pub msg] } }, none)
    | .absent => migrate_publication_rest st pub itemId none
    | .items l =>
      if l.isEmpty then migrate_publication_rest st pub itemId none
      else
        let sa := l.foldl (addOneTag itemId) (st, [])
        migrate_publication_rest sa.1 pub itemId (some sa.2)

/-! ### Attachment organization and the orchestrator -/

/-- `'<>:"|?*\\/\0'` — the characters `sanitize_filename` replaces. -/
def invalidFilenameChars : List Char := "<>:\"|?*\\/\x00".data

def stripChars (cs : List Char) (strip : List Char) : List Char :=
  ((cs.dropWhile (fun c => strip.contains c)).reverse.dropWhile
    (fun c => strip.contains c)).reverse

def rstripChars (cs : List Char) (strip : List Char) : List Char :=
  (cs.reverse.dropWhile (fun c => strip.contains c)).reverse

/-- `sanitize_filename(filename, max_length=100)`: replace invalid
characters, drop control characters, strip leading/trailing spaces and
dots, truncate, fall back to "Unknown". -/
def sanitize_filename (filename : String) (maxLength : Nat := 100) : String :=
  if filename.isEmpty then "Unknown"
  else
    let cs := filename.data
    let cs := cs.map (fun c => if invalidFilenameChars.contains c then '_' else c)
    let cs := cs.filter (fun c => 32 ≤ c.toNat)
    let cs := stripChars cs [' ', '.']
    let cs :=
      if maxLength < cs.length then rstripChars (cs.take maxLength) [' ', '.'] else cs
    if cs.isEmpty then "Unknown" else String.mk cs

/-- `pathlib.Path(p).suffix`: the extension of the final component —
`name[i:]` for the last dot index `i` when `0 < i < len(name) - 1`, else
the empty string. -/
def pathSuffix (p : String) : String :=
  let name := (p.splitOn "/").getLastD ""
  let cs := name.data
  let krev := cs.reverse.findIdx (fun c => c == '.')
  if krev < cs.length then
    let i := cs.length - 1 - krev
    if 0 < i ∧ i < cs.length - 1 then String.mk (cs.drop i) else ""
  else ""

/-- Split a slash-separated path string into the `FPath` components
(`Path.parent`, `Path.stem`, `Path.suffix`).  Source paths built by the
migrator always contain a directory part, so `render` is its inverse on
them. -/
def pathOfString (s : String) : FPath :=
  let parts := s.splitOn "/"
  let name := parts.getLastD ""
  let sfx := pathSuffix s
  ⟨String.intercalate "/" parts.dropLast,
   String.mk (name.data.take (name.length - sfx.length)), sfx⟩

/-- `build_base_path(pub, pdf)`:
`<files_target_dir>/<year>/<author>/<title>_<year><ext>`, decomposed into
directory, stem and suffix as `pathlib` would see them (the sanitized
title never ends in a dot and the extension carries exactly one leading
dot, so the filename's stem is `<title>_<year>`). -/
def build_base_path (filesTargetDir : String) (pub : ZPub) (pdf : PdfVal) : FPath :=
  let year := match pub.publication_date with
    | none => "Unknown"
    | some d =>
      if d.isEmpty then "Unknown"
      else if d.data.contains 'T' then (d.splitOn "-").getD 0 ""
      else if d.length = 4 then d
      else "Unknown"
  let authorName := match pub.authors with
    | [] => "NoAuthor"
    | a :: _ =>
      let nm := match a with
        | .adict _ surname fullname _ =>
          -- `first_author.get('surname') or first_author.get('fullname', 'NoAuthor')`
          if pyStrTruthy surname then surname.getD "" else fullname.getD "NoAuthor"
        | .astr s =>
          let parts := s.splitOn ", "
          if 2 ≤ parts.length then parts.getD 0 "" else s
      sanitize_filename nm 50
  let title := sanitize_filename (pub.title.getD "Untitled") 100
  let extension := match pdf with
    | .pdict path original_path _ =>
      let op := (pyOrStr path (some (original_path.getD ""))).getD ""
      if (pathSuffix op).isEmpty then ".pdf" else pathSuffix op
    | .pother => ".pdf"
  ⟨filesTargetDir ++ "/" ++ year ++ "/" ++ authorName, title ++ "_" ++ year, extension⟩

/-- The run parameters of the migrator (§ "Run parameters"). -/
structure MigrateCfg where
  testMode : Bool := false
  limit : Option Int := none
  skipAttachments : Bool := false
  filesDir : Option String := none
  filesTargetDir : Option String := none
  filesOnly : Bool := false

/-- One iteration of the `for pdf in pub['pdfs']` loop of
`migrate_pdfs`.  Non-dict entries and entries without a path are skipped;
when both file directories are configured the file is copied first (a
failed copy skips the attachment); the database insert is done unless in
files-only mode or without a parent item.  A `KeyError` from
`pub['uuid']` inside the copy step is caught by the per-PDF `except` and
logged. -/
def migrate_pdf_one (env : Env) (cfg : MigrateCfg) (pub : ZPub)
    (parentItemId : Option Nat) (st : RunState) (pdf : PdfVal) : RunState :=
  match pdf with
  | .pother => st
  | .pdict path original_path caption =>
    let pdfPath := pyOrStr path original_path
    if ¬ pyStrTruthy pdfPath then st
    else
      let pdfPathS := pdfPath.getD ""
      let pdfCaption := caption.getD "PDF"
      let copyRes : RunState × Option String :=
        match cfg.filesDir, cfg.filesTargetDir with
        | some fdir, some ftarget =>
          match pub.uuid with
          | none =>
            ({ st with stats := { st.stats with
                errors := st.stats.errors ++ ["PDF attachment: 'uuid'"] } }, none)
          | some pu =>
            let sourcePath :=
              if pdfPathS.startsWith "Files/" then
                pathOfString (fdir ++ "/" ++ (pdfPathS.drop 6))
              else pathOfString pdfPathS
            let basePath := build_base_path ftarget pub pdf
            let r := copy_and_organize_file cfg.testMode st.fs st.stats
              sourcePath basePath pu
            let st := { st with fs := r.1, stats := r.2.1 }
            match r.2.2 with
            | some finalP => (st, some (render finalP))
            | none => (st, none)
        | _, _ => (st, some pdfPathS)
      let st := copyRes.1
      match copyRes.2 with
      | none => st
      | some finalPath =>
        if ¬ cfg.filesOnly ∧ parentItemId.isSome then
          let attachmentId := nextId (st.db.items.map (fun r => r.itemID))
          let st := { st with
            db := { st.db with items := st.db.items ++
              [ItemRow.mk attachmentId 3 (envKey env st.keyCounter)
                "CURRENT_TIMESTAMP" "CURRENT_TIMESTAMP"] },
            keyCounter := st.keyCounter + 1 }
          let st := { st with db := { st.db with itemAttachments :=
            st.db.itemAttachments ++ [(attachmentId, parentItemId.getD 0, finalPath)] } }
          let st := add_item_data st attachmentId "title" (some pdfCaption)
          { st with stats := { st.stats with attachments := st.stats.attachments + 1 } }
        else st

/-- `migrate_pdfs(pub, parent_item_id)`. -/
def migrate_pdfs (env : Env) (cfg : MigrateCfg) (st : RunState) (pub : ZPub)
    (parentItemId : Option Nat) : RunState :=
  if cfg.skipAttachments then st
  else if pub.pdfs.isEmpty then st
  else pub.pdfs.foldl (migrate_pdf_one env cfg pub parentItemId) st

/-- Python's slice `publications[:n]`, including the negative-stop case
(`stop = len + n`, clamped at 0). -/
def pySlice {α : Type} (n : Int) (l : List α) : List α :=
  if 0 ≤ n then l.take n.toNat
  else l.take (l.length - (-n).toNat)

/-- `if self.limit: publications = publications[:self.limit]` — the cap
is applied by truthiness, so `None` and 0 both leave the list whole. -/
def applyLimit {α : Type} (limit : Option Int) (l : List α) : List α :=
  match limit with
  | none => l
  | some n => if n ≠ 0 then pySlice n l else l

/-- One iteration of the main import loop: migrate the publication, then
its PDFs if an item was created and attachments are not skipped. -/
def migrateLoopStep (env : Env) (cfg : MigrateCfg) (st : RunState) (pub : ZPub) :
    RunState :=
  let r := migrate_publication env st pub
  match r.2 with
  | some itemId =>
    if ¬ cfg.skipAttachments then migrate_pdfs env cfg r.1 pub (some itemId) else r.1
  | none => r.1

/-- The loaded catalog (`papers3_publications*.json` and the optional
`papers3_collections.json`; a missing collections file yields `[]`). -/
structure CatalogData where
  publications : List ZPub := []
  collections : List CollNode := []

/-- `migrate()` from `load_papers3_data` onward: the files-only branch,
or the transactional branch — `BEGIN TRANSACTION` (the snapshot is the
incoming `st.db`), collections, the per-document loop, then commit, or
rollback in test mode.  Argument validation and `sys.exit` paths precede
any write and are outside the model; statistics printing only reads
state.  No unrecoverable exception source exists in this model, so the
outer catch-rollback-reraise branch is dead here. -/
def migrate (env : Env) (cfg : MigrateCfg) (data : CatalogData) (st : RunState) :
    RunState :=
  if cfg.filesOnly then
    (applyLimit cfg.limit data.publications).foldl
      (fun s pub => migrate_pdfs env cfg s pub none) st
  else
    let st1 :=
      if ¬ data.collections.isEmpty then migrate_collections env st data.collections
      else st
    let st2 := (applyLimit cfg.limit data.publications).foldl (migrateLoopStep env cfg) st1
    if cfg.testMode then { st2 with db := st.db }
    else st2

/-! ### Frame lemmas for the per-document pipeline -/

/-- A document fails (its exception is raised and caught) exactly when
its `uuid` key is absent or its `keywords` value is truthy but not
iterable. -/
def pubFails (pub : ZPub) : Bool :=
  pub.uuid.isNone ||
    (match pub.keywords with | .nonIterable _ => true | _ => false)

/-- The `str(e)` of the exception a failing document raises. -/
def pubErrMsg (pub : ZPub) : String :=
  if pub.uuid.isNone then "'uuid'"
  else match pub.keywords with
    | .nonIterable msg => msg
    | _ => ""

theorem foldl_pres_gen {σ α β : Type} (f : σ → α → σ) (g : σ → β)
    (hstep : ∀ s a, g (f s a) = g s) :
    ∀ (l : List α) (s : σ), g (l.foldl f s) = g s := by
  intro l
  induction l with
  | nil => intro s; rfl
  | cons a rest ih =>
    intro s
    rw [List.foldl_cons, ih, hstep]

theorem add_item_data_frame (st : RunState) (itemId : Nat) (fn : String)
    (v : Option String) :
    (add_item_data st itemId fn v).db.items = st.db.items ∧
    (add_item_data st itemId fn v).stats = st.stats := by
  simp only [add_item_data]
  repeat' split
  all_goals exact ⟨rfl, rfl⟩

theorem add_item_data_db_items (itemId : Nat) (fn : String) (v : Option String) :
    ∀ s : RunState, (add_item_data s itemId fn v).db.items = s.db.items :=
  fun s => (add_item_data_frame s itemId fn v).1

theorem add_item_data_stats (itemId : Nat) (fn : String) (v : Option String) :
    ∀ s : RunState, (add_item_data s itemId fn v).stats = s.stats :=
  fun s => (add_item_data_frame s itemId fn v).2

theorem get_or_create_creator_frame (f l : String) : ∀ s : RunState,
    (get_or_create_creator s f l).1.db.items = s.db.items ∧
    (get_or_create_creator s f l).1.stats.items = s.stats.items ∧
    (get_or_create_creator s f l).1.stats.errors = s.stats.errors := by
  intro s
  rw [get_or_create_creator]
  cases hm : s.creatorMap.lookup (f ++ "|" ++ l) with
  | some creatorId => exact ⟨rfl, rfl, rfl⟩
  | none =>
    cases hf : s.db.creators.find? (fun r => r.firstName == f && r.lastName == l) with
    | some r => exact ⟨rfl, rfl, rfl⟩
    | none => exact ⟨rfl, rfl, rfl⟩

theorem get_or_create_tag_frame (tn : String) : ∀ s : RunState,
    (get_or_create_tag s tn).1.db.items = s.db.items ∧
    (get_or_create_tag s tn).1.stats.items = s.stats.items ∧
    (get_or_create_tag s tn).1.stats.errors = s.stats.errors := by
  intro s
  rw [get_or_create_tag]
  cases hm : s.tagMap.lookup tn with
  | some tagId => exact ⟨rfl, rfl, rfl⟩
  | none =>
    cases hf : s.db.tags.find? (fun r => r.2 == tn) with
    | some r => exact ⟨rfl, rfl, rfl⟩
    | none => exact ⟨rfl, rfl, rfl⟩

theorem addOneCreator_frame (itemId : Nat) (e : Nat × String × String × String) :
    ∀ s : RunState,
    (addOneCreator itemId s e).db.items = s.db.items ∧
    (addOneCreator itemId s e).stats.items = s.stats.items ∧
    (addOneCreator itemId s e).stats.errors = s.stats.errors := by
  intro s
  unfold addOneCreator
  obtain ⟨h1, h2, h3⟩ := get_or_create_creator_frame e.2.1 e.2.2.1 s
  exact ⟨h1, h2, h3⟩

theorem addOneTag_frame (itemId : Nat) (kw : KwEntry) :
    ∀ acc : RunState × List String,
    ((addOneTag itemId acc kw).1).db.items = acc.1.db.items ∧
    ((addOneTag itemId acc kw).1).stats.items = acc.1.stats.items ∧
    ((addOneTag itemId acc kw).1).stats.errors = acc.1.stats.errors := by
  intro acc
  simp only [addOneTag]
  split
  · split
    · exact ⟨(get_or_create_tag_frame _ acc.1).1,
        (get_or_create_tag_frame _ acc.1).2.1, (get_or_create_tag_frame _ acc.1).2.2⟩
    · exact ⟨(get_or_create_tag_frame _ acc.1).1,
        (get_or_create_tag_frame _ acc.1).2.1, (get_or_create_tag_frame _ acc.1).2.2⟩
  · exact ⟨rfl, rfl, rfl⟩

theorem addOneCollectionRef_frame (itemId : Nat) (cref : CollRef) :
    ∀ s : RunState,
    (addOneCollectionRef itemId s cref).db.items = s.db.items ∧
    (addOneCollectionRef itemId s cref).stats.items = s.stats.items ∧
    (addOneCollectionRef itemId s cref).stats.errors = s.stats.errors := by
  intro s
  simp only [addOneCollectionRef]
  repeat' split
  all_goals exact ⟨rfl, rfl, rfl⟩

theorem addFlagged_frame (itemId : Nat) (added : List String) :
    ∀ s : RunState,
    (addFlagged itemId s added).db.items = s.db.items ∧
    (addFlagged itemId s added).stats.items = s.stats.items ∧
    (addFlagged itemId s added).stats.errors = s.stats.errors := by
  intro s
  simp only [addFlagged]
  split
  · split
    · exact ⟨(get_or_create_tag_frame "Flagged" s).1,
        (get_or_create_tag_frame "Flagged" s).2.1, (get_or_create_tag_frame "Flagged" s).2.2⟩
    · exact ⟨(get_or_create_tag_frame "Flagged" s).1,
        (get_or_create_tag_frame "Flagged" s).2.1, (get_or_create_tag_frame "Flagged" s).2.2⟩
  · exact ⟨rfl, rfl, rfl⟩

theorem addFlagged_db_items (itemId : Nat) (added : List String) :
    ∀ s : RunState, (addFlagged itemId s added).db.items = s.db.items :=
  fun s => (addFlagged_frame itemId added s).1

theorem addFlagged_stats_items (itemId : Nat) (added : List String) :
    ∀ s : RunState, (addFlagged itemId s added).stats.items = s.stats.items :=
  fun s => (addFlagged_frame itemId added s).2.1

theorem addFlagged_stats_errors (itemId : Nat) (added : List String) :
    ∀ s : RunState, (addFlagged itemId s added).stats.errors = s.stats.errors :=
  fun s => (addFlagged_frame itemId added s).2.2

theorem collfold_db_items (itemId : Nat) (refs : List CollRef) :
    ∀ s : RunState, (refs.foldl (addOneCollectionRef itemId) s).db.items = s.db.items :=
  fun s => foldl_pres_gen (addOneCollectionRef itemId) (fun t => t.db.items)
    (fun t a => (addOneCollectionRef_frame itemId a t).1) refs s

theorem collfold_stats_items (itemId : Nat) (refs : List CollRef) :
    ∀ s : RunState,
    (refs.foldl (addOneCollectionRef itemId) s).stats.items = s.stats.items :=
  fun s => foldl_pres_gen (addOneCollectionRef itemId) (fun t => t.stats.items)
    (fun t a => (addOneCollectionRef_frame itemId a t).2.1) refs s

theorem collfold_stats_errors (itemId : Nat) (refs : List CollRef) :
    ∀ s : RunState,
    (refs.foldl (addOneCollectionRef itemId) s).stats.errors = s.stats.errors :=
  fun s => foldl_pres_gen (addOneCollectionRef itemId) (fun t => t.stats.errors)
    (fun t a => (addOneCollectionRef_frame itemId a t).2.2) refs s

theorem tagsfold_db_items (itemId : Nat) (l : List KwEntry) :
    ∀ acc : RunState × List String,
    ((l.foldl (addOneTag itemId) acc).1).db.items = acc.1.db.items :=
  fun acc => foldl_pres_gen (addOneTag itemId) (fun a => a.1.db.items)
    (fun a kw => (addOneTag_frame itemId kw a).1) l acc

theorem tagsfold_stats_items (itemId : Nat) (l : List KwEntry) :
    ∀ acc : RunState × List String,
    ((l.foldl (addOneTag itemId) acc).1).stats.items = acc.1.stats.items :=
  fun acc => foldl_pres_gen (addOneTag itemId) (fun a => a.1.stats.items)
    (fun a kw => (addOneTag_frame itemId kw a).2.1) l acc

theorem tagsfold_stats_errors (itemId : Nat) (l : List KwEntry) :
    ∀ acc : RunState × List String,
    ((l.foldl (addOneTag itemId) acc).1).stats.errors = acc.1.stats.errors :=
  fun acc => foldl_pres_gen (addOneTag itemId) (fun a => a.1.stats.errors)
    (fun a kw => (addOneTag_frame itemId kw a).2.2) l acc

theorem add_basic_fields_db_items (itemId : Nat) (pub : ZPub) :
    ∀ s : RunState, (add_basic_fields s itemId pub).db.items = s.db.items := by
  intro s
  simp only [add_basic_fields]
  cases hb : pub.bundle_title
  all_goals repeat' split
  all_goals simp only [add_item_data_db_items]

theorem add_basic_fields_stats (itemId : Nat) (pub : ZPub) :
    ∀ s : RunState, (add_basic_fields s itemId pub).stats = s.stats := by
  intro s
  simp only [add_basic_fields]
  cases hb : pub.bundle_title
  all_goals repeat' split
  all_goals simp only [add_item_data_stats]

theorem add_extra_field_db_items (itemId : Nat) (pub : ZPub) (u : String) :
    ∀ s : RunState, (add_extra_field s itemId pub u).db.items = s.db.items := by
  intro s
  simp only [add_extra_field, add_item_data_db_items]

theorem add_extra_field_stats (itemId : Nat) (pub : ZPub) (u : String) :
    ∀ s : RunState, (add_extra_field s itemId pub u).stats = s.stats := by
  intro s
  simp only [add_extra_field, add_item_data_stats]

theorem add_creators_db_items (itemId : Nat) (pub : ZPub) :
    ∀ s : RunState, (add_creators s itemId pub).db.items = s.db.items := by
  intro s
  simp only [add_creators]
  split
  · exact foldl_pres_gen (addOneCreator itemId) (fun t => t.db.items)
      (fun t a => (addOneCreator_frame itemId a t).1) _ s
  · rfl

theorem add_creators_stats_items (itemId : Nat) (pub : ZPub) :
    ∀ s : RunState, (add_creators s itemId pub).stats.items = s.stats.items := by
  intro s
  simp only [add_creators]
  split
  · exact foldl_pres_gen (addOneCreator itemId) (fun t => t.stats.items)
      (fun t a => (addOneCreator_frame itemId a t).2.1) _ s
  · rfl

theorem add_creators_stats_errors (itemId : Nat) (pub : ZPub) :
    ∀ s : RunState, (add_creators s itemId pub).stats.errors = s.stats.errors := by
  intro s
  simp only [add_creators]
  split
  · exact foldl_pres_gen (addOneCreator itemId) (fun t => t.stats.errors)
      (fun t a => (addOneCreator_frame itemId a t).2.2) _ s
  · rfl

theorem migrate_publication_rest_db_items (pub : ZPub) (itemId : Nat)
    (addedTags : Option (List String)) : ∀ s : RunState,
    (migrate_publication_rest s pub itemId addedTags).1.db.items = s.db.items := by
  intro s
  simp only [migrate_publication_rest]
  repeat' split
  all_goals simp only [addFlagged_db_items, collfold_db_items]

theorem migrate_publication_rest_stats_items (pub : ZPub) (itemId : Nat)
    (addedTags : Option (List String)) : ∀ s : RunState,
    (migrate_publication_rest s pub itemId addedTags).1.stats.items =
      s.stats.items + 1 := by
  intro s
  simp only [migrate_publication_rest]
  repeat' split
  all_goals simp only [addFlagged_stats_items, collfold_stats_items]

theorem migrate_publication_rest_stats_errors (pub : ZPub) (itemId : Nat)
    (addedTags : Option (List String)) : ∀ s : RunState,
    (migrate_publication_rest s pub itemId addedTags).1.stats.errors =
      s.stats.errors := by
  intro s
  simp only [migrate_publication_rest]
  repeat' split
  all_goals simp only [addFlagged_stats_errors, collfold_stats_errors]

theorem migrate_publication_rest_snd (pub : ZPub) (itemId : Nat)
    (addedTags : Option (List String)) : ∀ s : RunState,
    (migrate_publication_rest s pub itemId addedTags).2 = some itemId :=
  fun _ => rfl

/-- The `items` row `migrate_publication` inserts before any exception
point can be reached. -/
def insertedRow (env : Env) (st : RunState) (pub : ZPub) : ItemRow :=
  ItemRow.mk (nextId (st.db.items.map (fun r => r.itemID)))
    ((ITEM_TYPE_MAP.lookup (pub.ptype.getD "article")).getD 14)
    (envKey env st.keyCounter) (pub.created_at.getD env.now)
    (pub.updated_at.getD (pub.created_at.getD env.now))

theorem migrate_publication_db_items (env : Env) (st : RunState) (pub : ZPub) :
    (migrate_publication env st pub).1.db.items =
      st.db.items ++ [insertedRow env st pub] := by
  simp only [migrate_publication, insertedRow]
  split
  · rfl
  · split
    · simp only [add_creators_db_items, add_extra_field_db_items,
        add_basic_fields_db_items]
    · simp only [migrate_publication_rest_db_items, add_creators_db_items,
        add_extra_field_db_items, add_basic_fields_db_items]
    · split
      · simp only [migrate_publication_rest_db_items, add_creators_db_items,
          add_extra_field_db_items, add_basic_fields_db_items]
      · simp only [migrate_publication_rest_db_items, tagsfold_db_items,
          add_creators_db_items, add_extra_field_db_items, add_basic_fields_db_items]

theorem migrate_publication_stats_items (env : Env) (st : RunState) (pub : ZPub) :
    (migrate_publication env st pub).1.stats.items =
      st.stats.items + (if pubFails pub then 0 else 1) := by
  simp only [migrate_publication]
  split
  next heq => simp [pubFails, heq]
  next u heq =>
    split
    next msg heq2 =>
      simp [pubFails, heq, heq2, add_creators_stats_items, add_extra_field_stats,
        add_basic_fields_stats]
    next heq2 =>
      simp [pubFails, heq, heq2, migrate_publication_rest_stats_items,
        add_creators_stats_items, add_extra_field_stats, add_basic_fields_stats]
    next l heq2 =>
      split
      · simp [pubFails, heq, heq2, migrate_publication_rest_stats_items,
          add_creators_stats_items, add_extra_field_stats, add_basic_fields_stats]
      · simp [pubFails, heq, heq2, migrate_publication_rest_stats_items,
          tagsfold_stats_items, add_creators_stats_items, add_extra_field_stats,
          add_basic_fields_stats]

theorem migrate_publication_stats_errors (env : Env) (st : RunState) (pub : ZPub) :
    (migrate_publication env st pub).1.stats.errors =
      st.stats.errors ++
        (if pubFails pub then [errEntry pub (pubErrMsg pub)] else []) := by
  simp only [migrate_publication]
  split
  next heq => simp [pubFails, pubErrMsg, heq]
  next u heq =>
    split
    next msg heq2 =>
      simp [pubFails, pubErrMsg, heq, heq2, add_creators_stats_errors,
        add_extra_field_stats, add_basic_fields_stats]
    next heq2 =>
      simp [pubFails, heq, heq2, migrate_publication_rest_stats_errors,
        add_creators_stats_errors, add_extra_field_stats, add_basic_fields_stats]
    next l heq2 =>
      split
      · simp [pubFails, heq, heq2, migrate_publication_rest_stats_errors,
          add_creators_stats_errors, add_extra_field_stats, add_basic_fields_stats]
      · simp [pubFails, heq, heq2, migrate_publication_rest_stats_errors,
          tagsfold_stats_errors, add_creators_stats_errors, add_extra_field_stats,
          add_basic_fields_stats]

theorem migrate_publication_snd (env : Env) (st : RunState) (pub : ZPub) :
    (migrate_publication env st pub).2 =
      if pubFails pub then none
      else some (nextId (st.db.items.map (fun r => r.itemID))) := by
  simp only [migrate_publication]
  split
  next heq => simp [pubFails, heq]
  next u heq =>
    split
    next msg heq2 => simp [pubFails, heq, heq2]
    next heq2 => simp [pubFails, heq, heq2, migrate_publication_rest_snd]
    next l heq2 =>
      split
      · simp [pubFails, heq, heq2, migrate_publication_rest_snd]
      · simp [pubFails, heq, heq2, migrate_publication_rest_snd]

/-! ### Frame lemmas for the attachment phase and the collections phase -/

theorem copy_and_organize_file_stats_items (testMode : Bool)
    (sourcePath targetPath : FPath) (pubUuid : String) (fs : FS) :
    ∀ stats : Stats,
    ((copy_and_organize_file testMode fs stats sourcePath targetPath pubUuid).2.1).items
      = stats.items := by
  intro stats
  simp only [copy_and_organize_file]
  repeat' split
  all_goals rfl

theorem migrate_pdf_one_stats_items (env : Env) (cfg : MigrateCfg) (pub : ZPub)
    (pid : Option Nat) (pdf : PdfVal) : ∀ s : RunState,
    (migrate_pdf_one env cfg pub pid s pdf).stats.items = s.stats.items := by
  intro s
  simp only [migrate_pdf_one]
  repeat' split
  all_goals simp only [add_item_data_stats, copy_and_organize_file_stats_items]

theorem migrate_pdfs_stats_items (env : Env) (cfg : MigrateCfg) (pub : ZPub)
    (pid : Option Nat) : ∀ s : RunState,
    (migrate_pdfs env cfg s pub pid).stats.items = s.stats.items := by
  intro s
  simp only [migrate_pdfs]
  split
  · rfl
  · split
    · rfl
    · exact foldl_pres_gen (migrate_pdf_one env cfg pub pid) (fun t => t.stats.items)
        (fun t a => migrate_pdf_one_stats_items env cfg pub pid a t) pub.pdfs s

/-- The collections phase touches no item row, item counter or error
entry, with no well-formedness assumption needed. -/
theorem import_coreframe_aux : ∀ n : Nat,
    (∀ c : CollNode, sizeOf c ≤ n → ∀ (env : Env) (st : RunState) (p : Option Nat),
      CoreFrame st (import_collection env st c p)) ∧
    (∀ cs : List CollNode, sizeOf cs ≤ n → ∀ (env : Env) (st : RunState) (pid : Nat),
      CoreFrame st (import_children env st cs pid)) := by
  intro n
  induction n with
  | zero =>
    constructor
    · rintro ⟨u, nm, children⟩ hc
      exfalso
      simp at hc
    · rintro (_ | ⟨c, rest⟩) hcs
      · exfalso; simp at hcs
      · exfalso; simp at hcs
  | succ n ih =>
    constructor
    · rintro ⟨u, nm, children⟩ hc env st p
      have hch : sizeOf children ≤ n := by
        simp at hc
        omega
      cases hl : lookupCollection st.db.collections nm p with
      | some i =>
        rw [import_collection_unfold_hit env st u nm children p i hl]
        exact CoreFrame_trans ⟨rfl, rfl, rfl⟩ (ih.2 children hch env _ i)
      | none =>
        rw [import_collection_unfold_miss env st u nm children p hl]
        exact CoreFrame_trans ⟨rfl, rfl, rfl⟩ (ih.2 children hch env _ _)
    · rintro (_ | ⟨c, rest⟩) hcs env st pid
      · rw [import_children_nil]
        exact CoreFrame_refl st
      · have hsplit : sizeOf c ≤ n ∧ sizeOf rest ≤ n := by
          simp at hcs
          omega
        rw [import_children_cons]
        exact CoreFrame_trans (ih.1 c hsplit.1 env st (some pid))
          (ih.2 rest hsplit.2 env (import_collection env st c (some pid)) pid)

theorem migrate_collections_coreframe (env : Env) (roots : List CollNode) :
    ∀ st : RunState, CoreFrame st (migrate_collections env st roots) := by
  intro st
  simp only [migrate_collections]
  induction roots generalizing st with
  | nil => exact CoreFrame_refl st
  | cons c rest ih =>
    rw [List.foldl_cons]
    exact CoreFrame_trans
      ((import_coreframe_aux (sizeOf c)).1 c (Nat.le_refl _) env st none)
      (ih (import_collection env st c none))

/-! ### The main import loop -/

theorem migrateLoopStep_skip (env : Env) (cfg : MigrateCfg)
    (hskip : cfg.skipAttachments = true) (st : RunState) (pub : ZPub) :
    migrateLoopStep env cfg st pub = (migrate_publication env st pub).1 := by
  simp only [migrateLoopStep]
  cases h : (migrate_publication env st pub).2 with
  | none => rfl
  | some i => simp [hskip]

/-- With attachments skipped, the import loop appends exactly one item
row per processed document (failed or not), counts exactly the
successful documents, and appends exactly one error entry per failing
document, naming it. -/
theorem migrateLoop_skip_spec (env : Env) (cfg : MigrateCfg)
    (hskip : cfg.skipAttachments = true) :
    ∀ (pubs : List ZPub) (st : RunState),
    (pubs.foldl (migrateLoopStep env cfg) st).db.items.length =
        st.db.items.length + pubs.length ∧
    (pubs.foldl (migrateLoopStep env cfg) st).stats.items =
        st.stats.items + (pubs.filter (fun p => !(pubFails p))).length ∧
    (pubs.foldl (migrateLoopStep env cfg) st).stats.errors =
        st.stats.errors ++ (pubs.filter (fun p => pubFails p)).map
          (fun p => errEntry p (pubErrMsg p)) := by
  intro pubs
  induction pubs with
  | nil => intro st; exact ⟨by simp, by simp, by simp⟩
  | cons p rest ih =>
    intro st
    rw [List.foldl_cons, migrateLoopStep_skip env cfg hskip]
    obtain ⟨ih1, ih2, ih3⟩ := ih ((migrate_publication env st p).1)
    refine ⟨?_, ?_, ?_⟩
    · rw [ih1, migrate_publication_db_items]
      simp [List.length_append]
      omega
    · rw [ih2, migrate_publication_stats_items]
      cases hf : pubFails p <;> simp [List.filter_cons, hf] <;> omega
    · rw [ih3, migrate_publication_stats_errors]
      cases hf : pubFails p <;> simp [List.filter_cons, hf, List.append_assoc]

/-- Without the skip flag, the per-document step still counts
`stats['items']` exactly for the successful documents: the attachment
phase never touches that counter. -/
theorem migrateLoop_stats_items (env : Env) (cfg : MigrateCfg) :
    ∀ (pubs : List ZPub) (st : RunState),
    (pubs.foldl (migrateLoopStep env cfg) st).stats.items =
        st.stats.items + (pubs.filter (fun p => !(pubFails p))).length := by
  have hstep : ∀ (st : RunState) (pub : ZPub),
      (migrateLoopStep env cfg st pub).stats.items =
        st.stats.items + (if pubFails pub then 0 else 1) := by
    intro st pub
    simp only [migrateLoopStep]
    have hs := migrate_publication_snd env st pub
    split
    next itemId heq =>
      rw [hs] at heq
      cases hf : pubFails pub
      · split
        · simp [migrate_pdfs_stats_items, migrate_publication_stats_items, hf]
        · simp [migrate_publication_stats_items, hf]
      · rw [hf] at heq; simp at heq
    next heq =>
      rw [hs] at heq
      cases hf : pubFails pub
      · rw [hf] at heq; simp at heq
      · simp [migrate_publication_stats_items, hf]
  intro pubs
  induction pubs with
  | nil => intro st; simp
  | cons p rest ih =>
    intro st
    rw [List.foldl_cons, ih, hstep]
    cases hf : pubFails p <;> simp [List.filter_cons, hf] <;> omega

theorem migrate_normal_eq (env : Env) (cfg : MigrateCfg) (data : CatalogData)
    (st : RunState) (htest : cfg.testMode = false) (hfo : cfg.filesOnly = false) :
    migrate env cfg data st =
      (applyLimit cfg.limit data.publications).foldl (migrateLoopStep env cfg)
        (if ¬ data.collections.isEmpty then migrate_collections env st data.collections
         else st) := by
  simp [migrate, hfo, htest]

theorem migrate_test_eq (env : Env) (cfg : MigrateCfg) (data : CatalogData)
    (st : RunState) (htest : cfg.testMode = true) (hfo : cfg.filesOnly = false) :
    migrate env cfg data st =
      { (applyLimit cfg.limit data.publications).foldl (migrateLoopStep env cfg)
          (if ¬ data.collections.isEmpty then migrate_collections env st data.collections
           else st)
        with db := st.db } := by
  simp [migrate, hfo, htest]

/-- C1 counterexample: a committed (non-test) run over three documents of
which the middle one fails (truthy non-iterable `keywords`, raising
`TypeError` after the `items` row insert).  The error is logged, the
other documents are processed — but the store holds three item rows, not
two: the failing document's partially populated record is present in the
committed result, refuting the "no partial record" part of the claim. -/
theorem c1_counterexample :
    let env : Env := { now := "T0", keyStream := fun _ _ => 0 }
    let cfg : MigrateCfg := { skipAttachments := true }
    let data : CatalogData :=
      { publications :=
          [{ uuid := some "doc1" },
           { uuid := some "doc5", keywords := .nonIterable "is not iterable" },
           { uuid := some "doc3" }],
        collections := [] }
    (migrate env cfg data {}).stats.errors = ["Publication doc5: is not iterable"] ∧
    (migrate env cfg data {}).stats.items = 2 ∧
    (migrate env cfg data {}).db.items.length = 3 := by
  decide

/-- C1, amended: in a committed run (attachments skipped), every failing
document's exception is caught, exactly one error-log entry naming that
document is appended, processing continues (the items counter counts
exactly the successful documents) — but each processed document, failed
or not, leaves exactly one `items` row in the committed store: the
partial record of a failing document is NOT absent. -/
theorem c1_error_containment (env : Env) (cfg : MigrateCfg) (data : CatalogData)
    (st : RunState) (htest : cfg.testMode = false) (hfo : cfg.filesOnly = false)
    (hskip : cfg.skipAttachments = true) :
    (migrate env cfg data st).stats.errors =
      st.stats.errors ++
        ((applyLimit cfg.limit data.publications).filter (fun p => pubFails p)).map
          (fun p => errEntry p (pubErrMsg p)) ∧
    (migrate env cfg data st).stats.items =
      st.stats.items +
        ((applyLimit cfg.limit data.publications).filter
          (fun p => !(pubFails p))).length ∧
    (migrate env cfg data st).db.items.length =
      st.db.items.length + (applyLimit cfg.limit data.publications).length := by
  have hone := migrate_normal_eq env cfg data st htest hfo
  have hcf : CoreFrame st (if ¬ data.collections.isEmpty then
      migrate_collections env st data.collections else st) := by
    split
    · exact migrate_collections_coreframe env data.collections st
    · exact CoreFrame_refl st
  obtain ⟨hc1, hc2, hc3⟩ := hcf
  obtain ⟨hl1, hl2, hl3⟩ := migrateLoop_skip_spec env cfg hskip
    (applyLimit cfg.limit data.publications)
    (if ¬ data.collections.isEmpty then migrate_collections env st data.collections
     else st)
  refine ⟨?_, ?_, ?_⟩
  · rw [hone, hl3, hc3]
  · rw [hone, hl2, hc2]
  · rw [hone, hl1, hc1]

theorem c1_error_containment_witness :
    (migrate { now := "T0", keyStream := fun _ _ => 0 }
        ({ skipAttachments := true } : MigrateCfg)
        { publications := [{ uuid := some "d1" }, { uuid := none }],
          collections := [] } {}).db.items.length = 0 + 2 := by
  have h := c1_error_containment { now := "T0", keyStream := fun _ _ => 0 }
    { skipAttachments := true }
    { publications := [{ uuid := some "d1" }, { uuid := none }], collections := [] }
    {} rfl rfl rfl
  exact h.2.2

/-- C5: a dry-run (test-mode) invocation restores the incoming database
snapshot after the loop — zero new rows of any table — while
`stats['items']` still counts exactly the documents that would have been
written (all of them, when all succeed). -/
theorem c5_dry_run_rollback (env : Env) (cfg : MigrateCfg) (data : CatalogData)
    (st : RunState) (htest : cfg.testMode = true) (hfo : cfg.filesOnly = false) :
    (migrate env cfg data st).db = st.db ∧
    (migrate env cfg data st).stats.items =
      st.stats.items +
        ((applyLimit cfg.limit data.publications).filter
          (fun p => !(pubFails p))).length := by
  have hone := migrate_test_eq env cfg data st htest hfo
  have hcf : CoreFrame st (if ¬ data.collections.isEmpty then
      migrate_collections env st data.collections else st) := by
    split
    · exact migrate_collections_coreframe env data.collections st
    · exact CoreFrame_refl st
  obtain ⟨hc1, hc2, hc3⟩ := hcf
  have hl := migrateLoop_stats_items env cfg (applyLimit cfg.limit data.publications)
    (if ¬ data.collections.isEmpty then migrate_collections env st data.collections
     else st)
  constructor
  · rw [hone]
  · rw [hone]
    simp only [hl, hc2]

theorem c5_dry_run_rollback_witness :
    (migrate { now := "T0", keyStream := fun _ _ => 0 }
        ({ testMode := true } : MigrateCfg)
        { publications := [{ uuid := some "d1" }, { uuid := some "d2" }],
          collections := [] } {}).db = ({} : RunState).db ∧
    (migrate { now := "T0", keyStream := fun _ _ => 0 }
        ({ testMode := true } : MigrateCfg)
        { publications := [{ uuid := some "d1" }, { uuid := some "d2" }],
          collections := [] } {}).stats.items = 0 + 2 := by
  have h := c5_dry_run_rollback { now := "T0", keyStream := fun _ _ => 0 }
    { testMode := true }
    { publications := [{ uuid := some "d1" }, { uuid := some "d2" }], collections := [] }
    {} rfl rfl
  exact ⟨h.1, h.2⟩

/-- C10: the record cap is applied by truthiness — `if self.limit:` — so
a positive cap `n` truncates the processed list to its first
`min(n, total)` publications in input order, while a cap of exactly 0 is
falsy and leaves the list whole, like no cap at all. -/
theorem c10_limit_truthiness {α : Type} (n : Int) (l : List α) (hpos : 0 < n) :
    applyLimit (some n) l = l.take n.toNat ∧
    (applyLimit (some n) l).length = min n.toNat l.length ∧
    applyLimit (some 0) l = l ∧
    applyLimit (none : Option Int) l = l := by
  have h1 : n ≠ 0 := by omega
  have h2 : (0 : Int) ≤ n := le_of_lt hpos
  refine ⟨?_, ?_, ?_, rfl⟩
  · simp [applyLimit, pySlice, h1, h2]
  · simp [applyLimit, pySlice, h1, h2, List.length_take]
  · simp [applyLimit]

theorem c10_limit_truthiness_witness :
    applyLimit (some 2) [10, 20, 30] = [10, 20] ∧
    applyLimit (some 0) [10, 20, 30] = [10, 20, 30] := by
  have h := c10_limit_truthiness 2 [10, 20, 30] (by norm_num)
  exact ⟨h.1.trans rfl, h.2.2.1⟩

end P3Z
